import Mathlib

/-!
# c-headers: debug.h, macros.h, uctypes.h

A shallow embedding of the header-only utilities of the repository.

* Machine integers.  A C `int` is an `Int` in the range `[-2^31, 2^31)`; arithmetic wraps
  (two's complement) and the bitwise operators act on the 32-bit pattern of the value.
* `debug.h`.  The print gate is a state transformer on a `World`: the two 16-bit globals, the
  output sink of `ucprintf`, and the program memory that argument expressions may touch.
  The scoped macros paste their `scope` parameter without parentheses, so the scope argument
  is kept as the chain of operands written at the call site and the pasted test is evaluated
  with the C precedence of `&`, `^` and `|`.
* `macros.h`.  Each macro is the function its replacement text computes on `int` operands;
  `FCC` works on `uint32_t` and `NUM_ARRAY_ELEM` on the two sizes that `sizeof` reports.
* `uctypes.h`.  The rounding macros compute on `size_t`, whose width and the two `sizeof`
  values are parameters of a `Target`; the byte-order macros depend on which endianness
  symbols are defined and work on unsigned 16-bit and 32-bit patterns.
-/

namespace CHeaders

/-! ## 32-bit `int` -/

/-- Two's-complement bit pattern (a natural number below `2^32`) of an integer. -/
def toBits (x : Int) : Nat := (x % 4294967296).toNat

/-- Signed value of the low 32 bits of a pattern. -/
def ofBits (n : Nat) : Int :=
  if n % 4294967296 < 2147483648 then ((n % 4294967296 : Nat) : Int)
  else ((n % 4294967296 : Nat) : Int) - 4294967296

/-- Reduction of a mathematical integer to the `int` that holds it after wrap-around. -/
def wrap (x : Int) : Int := ofBits (toBits x)

/-- Range of `int`. -/
def isInt32 (x : Int) : Prop := -2147483648 ≤ x ∧ x < 2147483648

instance (x : Int) : Decidable (isInt32 x) := by unfold isInt32; infer_instance

/-- C `a + b` on `int`. -/
def add (a b : Int) : Int := wrap (a + b)

/-- C `a - b` on `int`. -/
def sub (a b : Int) : Int := wrap (a - b)

/-- C `a * b` on `int`. -/
def mul (a b : Int) : Int := wrap (a * b)

/-- C `a / b` on `int`: the quotient is truncated toward zero. -/
def div (a b : Int) : Int := wrap (Int.tdiv a b)

/-- C `-a` on `int`. -/
def neg (a : Int) : Int := wrap (-a)

/-- C `a & b` on `int`. -/
def band (a b : Int) : Int := ofBits (toBits a &&& toBits b)

/-- C `a | b` on `int`. -/
def bor (a b : Int) : Int := ofBits (toBits a ||| toBits b)

/-- C `a ^ b` on `int`. -/
def bxor (a b : Int) : Int := ofBits (toBits a ^^^ toBits b)

/-- C `~a` on `int`: every one of the 32 bits is flipped. -/
def bnot (a : Int) : Int := ofBits (4294967295 - toBits a)

/-- C `a << n` on `int`: the pattern is shifted and the bits above bit 31 are dropped. -/
def shl (a : Int) (n : Nat) : Int := ofBits (toBits a <<< n)

/-- C `a >> n` on `int`: arithmetic shift, the sign bit is replicated. -/
def shr (a : Int) (n : Nat) : Int := a >>> n

/-! ## debug.h -/

def PRINT_LEVEL_NONE : Int := 4
def PRINT_LEVEL_WARN : Int := 3
def PRINT_LEVEL_INFO : Int := 2
def PRINT_LEVEL_DEBUG : Int := 1
def PRINT_LEVEL_ALL : Int := 0

def PRINT_SCOPE_NONE : Int := 0x0
def PRINT_SCOPE_AREA00 : Int := shl 1 0
def PRINT_SCOPE_AREA01 : Int := shl 1 1
def PRINT_SCOPE_AREA02 : Int := shl 1 2
def PRINT_SCOPE_AREA03 : Int := shl 1 3
def PRINT_SCOPE_AREA04 : Int := shl 1 4
def PRINT_SCOPE_AREA05 : Int := shl 1 5
def PRINT_SCOPE_AREA06 : Int := shl 1 6
def PRINT_SCOPE_AREA07 : Int := shl 1 7
def PRINT_SCOPE_AREA08 : Int := shl 1 8
def PRINT_SCOPE_AREA09 : Int := shl 1 9
def PRINT_SCOPE_AREA10 : Int := shl 1 10
def PRINT_SCOPE_AREA11 : Int := shl 1 11
def PRINT_SCOPE_AREA12 : Int := shl 1 12
def PRINT_SCOPE_AREA13 : Int := shl 1 13
def PRINT_SCOPE_AREA14 : Int := shl 1 14
def PRINT_SCOPE_AREA15 : Int := shl 1 15
def PRINT_SCOPE_ALL : Int := 0xFFFF

/-- Preprocessor configuration of a translation unit that includes debug.h: whether
`DEBUG_PRINT` and `RUNTIME_PRINT_LEVEL` are defined, and the value of `CURRENT_PRINT_LEVEL`
(read only when run-time control is off). -/
structure Build where
  DEBUG_PRINT : Bool
  RUNTIME_PRINT_LEVEL : Bool
  CURRENT_PRINT_LEVEL : Int

/-- One call of the output primitive: the format string and the values of the arguments. -/
abbrev Record := String × List Int

/-- Program state seen by the gate.  `g_currentPrintLevel` and `g_currentPrintScope` are the
two `unsigned short` globals, `sink` is everything `ucprintf` has written, `mem` is the rest
of the program state. -/
structure World (σ : Type) where
  g_currentPrintLevel : Fin 65536
  g_currentPrintScope : Fin 65536
  sink : List Record
  mem : σ

/-- An argument expression of a macro call: evaluating it yields an `int` and may change the
program memory (not the two gate globals, which only external code assigns). -/
abbrev Arg (σ : Type) := σ → Int × σ

/-- Left-to-right evaluation of an argument list. -/
def evalArgs {σ : Type} : List (Arg σ) → σ → List Int × σ
  | [], m => ([], m)
  | a :: rest, m =>
    let r := a m
    let rs := evalArgs rest r.2
    (r.1 :: rs.1, rs.2)

/-- The external output primitive `ucprintf(fmt, args...)`: its arguments are evaluated and
one record is appended to the sink. -/
def ucprintf {σ : Type} (fmt : String) (args : List (Arg σ)) (w : World σ) : World σ :=
  let r := evalArgs args w.mem
  { w with sink := w.sink ++ [(fmt, r.1)], mem := r.2 }

/-- Macro `PRINT(fmt, args...)`. -/
def PRINT {σ : Type} (b : Build) (fmt : String) (args : List (Arg σ)) (w : World σ) :
    World σ :=
  if b.DEBUG_PRINT then ucprintf fmt args w
  else w

/-- Macro `PRINTW(fmt, args...)`. -/
def PRINTW {σ : Type} (b : Build) (fmt : String) (args : List (Arg σ)) (w : World σ) :
    World σ :=
  if b.DEBUG_PRINT then
    if !b.RUNTIME_PRINT_LEVEL then
      if b.CURRENT_PRINT_LEVEL ≤ PRINT_LEVEL_WARN then ucprintf fmt args w else w
    else
      if (w.g_currentPrintLevel.val : Int) ≤ PRINT_LEVEL_WARN then ucprintf fmt args w else w
  else w

/-- Macro `PRINTI(fmt, args...)`. -/
def PRINTI {σ : Type} (b : Build) (fmt : String) (args : List (Arg σ)) (w : World σ) :
    World σ :=
  if b.DEBUG_PRINT then
    if !b.RUNTIME_PRINT_LEVEL then
      if b.CURRENT_PRINT_LEVEL ≤ PRINT_LEVEL_INFO then ucprintf fmt args w else w
    else
      if (w.g_currentPrintLevel.val : Int) ≤ PRINT_LEVEL_INFO then ucprintf fmt args w else w
  else w

/-- Macro `PRINTD(fmt, args...)`. -/
def PRINTD {σ : Type} (b : Build) (fmt : String) (args : List (Arg σ)) (w : World σ) :
    World σ :=
  if b.DEBUG_PRINT then
    if !b.RUNTIME_PRINT_LEVEL then
      if b.CURRENT_PRINT_LEVEL ≤ PRINT_LEVEL_DEBUG then ucprintf fmt args w else w
    else
      if (w.g_currentPrintLevel.val : Int) ≤ PRINT_LEVEL_DEBUG then ucprintf fmt args w else w
  else w

/-- Macro `PRINTV(fmt, args...)`. -/
def PRINTV {σ : Type} (b : Build) (fmt : String) (args : List (Arg σ)) (w : World σ) :
    World σ :=
  if b.DEBUG_PRINT then
    if !b.RUNTIME_PRINT_LEVEL then
      if b.CURRENT_PRINT_LEVEL = PRINT_LEVEL_ALL then ucprintf fmt args w else w
    else
      if (w.g_currentPrintLevel.val : Int) = PRINT_LEVEL_ALL then ucprintf fmt args w else w
  else w

/-- The binary operators that bind no tighter than `&`, so that an argument written with one
of them at its top level does not stay a single operand once it is pasted next to `&`. -/
inductive BitOp where
  | and
  | xor
  | or

/-- The scope argument of a scoped macro as it is written at the call site: operands joined
by the bitwise operators `&`, `^`, `|`, with no parentheses around the whole.  An operand is
an expression that binds tighter than `&`: a constant such as `PRINT_SCOPE_AREA00`, a
variable, a parenthesised expression.  The macros paste these tokens as they are.  An
argument whose top-level operator is `&&`, `||`, `?:` or an assignment is not represented. -/
structure ScopeArg (σ : Type) where
  head : Arg σ
  tail : List (BitOp × Arg σ)

/-- Left-to-right evaluation of the operands that follow the first one. -/
def evalOperands {σ : Type} : List (BitOp × Arg σ) → σ → List (BitOp × Int) × σ
  | [], m => ([], m)
  | (op, a) :: rest, m =>
    let r := a m
    let rs := evalOperands rest r.2
    ((op, r.1) :: rs.1, rs.2)

/-- Value of an unparenthesised chain `.. op v ..` under the C precedence `&` over `^` over
`|`, all left-associative.  The first argument is the `|` of the operands closed so far, the
second the `^` of the `&`-chains closed inside the current `|` operand, the third the value
of the current `&`-chain. -/
def chainGo : Int → Int → Int → List (BitOp × Int) → Int
  | o, x, a, [] => bor o (bxor x a)
  | o, x, a, (BitOp.and, v) :: rest => chainGo o x (band a v) rest
  | o, x, a, (BitOp.xor, v) :: rest => chainGo o (bxor x a) v rest
  | o, x, a, (BitOp.or, v) :: rest => chainGo (bor o (bxor x a)) 0 v rest

/-- Value of the chain `v0 op1 v1 op2 v2 ..` as C parses it. -/
def chainValue (v0 : Int) (rest : List (BitOp × Int)) : Int := chainGo 0 0 v0 rest

/-- Value of `g_currentPrintScope & scope` once the tokens of the argument are pasted in:
the mask becomes a new first operand, joined by `&` to the first operand written. -/
def maskThenScope (g h : Int) (t : List (BitOp × Int)) : Int :=
  chainValue g ((BitOp.and, h) :: t)

/-- Value of `scope & g_currentPrintScope` once the tokens of the argument are pasted in:
the mask becomes a new last operand, joined by `&` to the last operand written. -/
def scopeThenMask (g h : Int) (t : List (BitOp × Int)) : Int :=
  chainValue h (t ++ [(BitOp.and, g)])

/-- Macro `SPRINT(scope, fmt, args...)`.  The scoped macros exist only when `DEBUG_PRINT` is
undefined (empty replacement) or when both `DEBUG_PRINT` and `RUNTIME_PRINT_LEVEL` are
defined; in the remaining configuration the name is not a macro and the result is `none`.
The test is `g_currentPrintScope & scope` with `scope` pasted without parentheses. -/
def SPRINT {σ : Type} (b : Build) (scope : ScopeArg σ) (fmt : String) (args : List (Arg σ))
    (w : World σ) : Option (World σ) :=
  if b.DEBUG_PRINT then
    if !b.RUNTIME_PRINT_LEVEL then none
    else
      let h := scope.head w.mem
      let t := evalOperands scope.tail h.2
      let w1 := { w with mem := t.2 }
      if maskThenScope (w.g_currentPrintScope.val : Int) h.1 t.1 ≠ 0 then
        some (ucprintf fmt args w1)
      else some w1
  else some w

/-- Macro `SPRINTW(scope, fmt, args...)`.  The test is
`(scope & g_currentPrintScope) && (g_currentPrintLevel <= PRINT_LEVEL_WARN)` with `scope`
pasted without parentheses. -/
def SPRINTW {σ : Type} (b : Build) (scope : ScopeArg σ) (fmt : String) (args : List (Arg σ))
    (w : World σ) : Option (World σ) :=
  if b.DEBUG_PRINT then
    if !b.RUNTIME_PRINT_LEVEL then none
    else
      let h := scope.head w.mem
      let t := evalOperands scope.tail h.2
      let w1 := { w with mem := t.2 }
      if scopeThenMask (w.g_currentPrintScope.val : Int) h.1 t.1 ≠ 0
          ∧ (w.g_currentPrintLevel.val : Int) ≤ PRINT_LEVEL_WARN then
        some (ucprintf fmt args w1)
      else some w1
  else some w

/-- Macro `SPRINTI(scope, fmt, args...)`. -/
def SPRINTI {σ : Type} (b : Build) (scope : ScopeArg σ) (fmt : String) (args : List (Arg σ))
    (w : World σ) : Option (World σ) :=
  if b.DEBUG_PRINT then
    if !b.RUNTIME_PRINT_LEVEL then none
    else
      let h := scope.head w.mem
      let t := evalOperands scope.tail h.2
      let w1 := { w with mem := t.2 }
      if scopeThenMask (w.g_currentPrintScope.val : Int) h.1 t.1 ≠ 0
          ∧ (w.g_currentPrintLevel.val : Int) ≤ PRINT_LEVEL_INFO then
        some (ucprintf fmt args w1)
      else some w1
  else some w

/-- Macro `SPRINTD(scope, fmt, args...)`. -/
def SPRINTD {σ : Type} (b : Build) (scope : ScopeArg σ) (fmt : String) (args : List (Arg σ))
    (w : World σ) : Option (World σ) :=
  if b.DEBUG_PRINT then
    if !b.RUNTIME_PRINT_LEVEL then none
    else
      let h := scope.head w.mem
      let t := evalOperands scope.tail h.2
      let w1 := { w with mem := t.2 }
      if scopeThenMask (w.g_currentPrintScope.val : Int) h.1 t.1 ≠ 0
          ∧ (w.g_currentPrintLevel.val : Int) ≤ PRINT_LEVEL_DEBUG then
        some (ucprintf fmt args w1)
      else some w1
  else some w

/-- Macro `SPRINTV(scope, fmt, args...)`. -/
def SPRINTV {σ : Type} (b : Build) (scope : ScopeArg σ) (fmt : String) (args : List (Arg σ))
    (w : World σ) : Option (World σ) :=
  if b.DEBUG_PRINT then
    if !b.RUNTIME_PRINT_LEVEL then none
    else
      let h := scope.head w.mem
      let t := evalOperands scope.tail h.2
      let w1 := { w with mem := t.2 }
      if scopeThenMask (w.g_currentPrintScope.val : Int) h.1 t.1 ≠ 0
          ∧ (w.g_currentPrintLevel.val : Int) ≤ PRINT_LEVEL_ALL then
        some (ucprintf fmt args w1)
      else some w1
  else some w

/-- The threshold a build compares against: the global when run-time control is on, the
compile-time constant otherwise. -/
def activeLevel {σ : Type} (b : Build) (w : World σ) : Int :=
  if b.RUNTIME_PRINT_LEVEL then (w.g_currentPrintLevel.val : Int) else b.CURRENT_PRINT_LEVEL

/-- A macro call that took `w` to `w1` emitted: the sink changed. -/
def emits {σ : Type} (w w1 : World σ) : Prop := w1.sink ≠ w.sink

/-- A scoped macro call emitted: it expanded and the sink changed. -/
def semits {σ : Type} (w : World σ) (r : Option (World σ)) : Prop :=
  ∃ w1, r = some w1 ∧ w1.sink ≠ w.sink

/-! ## macros.h

The macros are untyped; they are modelled at operand type `int`.  Division by zero and a
shift count outside `0..31` are undefined in C and lie outside the statements below. -/

/-- Macro `ALIGNB(val, align)`: `(((val) + ((align) - 1)) & ~((align) - 1))`. -/
def ALIGNB (val align : Int) : Int := band (add val (sub align 1)) (bnot (sub align 1))

/-- Macro `ALIGN(val, align)`: `((((val) + ((align) - 1)) / (align)) * (align))`. -/
def ALIGN (val align : Int) : Int := mul (div (add val (sub align 1)) align) align

/-- Macro `FLOORB(val, align)`: `((val) & ~((align) - 1))`. -/
def FLOORB (val align : Int) : Int := band val (bnot (sub align 1))

/-- Macro `FLOOR(val, align)`: `(((val) / (align)) * (align))`. -/
def FLOOR (val align : Int) : Int := mul (div val align) align

/-- Macro `CEILB(val, align)`: `ALIGNB(val, align)`. -/
def CEILB (val align : Int) : Int := ALIGNB val align

/-- Macro `CEIL(val, align)`: `ALIGN(val, align)`. -/
def CEIL (val align : Int) : Int := ALIGN val align

/-- Macro `CLIP(val, min, max)`: `(((val) < (min)) ? (min) : (((val) > (max)) ? (max) : (val)))`. -/
def CLIP (val min max : Int) : Int :=
  if val < min then min else (if val > max then max else val)

/-- Macro `UCLIP(val, max)`: `(((val) > (max)) ? (max) : (val))`. -/
def UCLIP (val max : Int) : Int := if val > max then max else val

/-- Macro `LCLIP(val, min)`: `(((val) < (min)) ? (min) : (val))`. -/
def LCLIP (val min : Int) : Int := if val < min then min else val

/-- Macro `MIN(x, y)`: `(((x) < (y)) ? (x) : (y))`. -/
def MIN (x y : Int) : Int := if x < y then x else y

/-- Macro `MAX(x, y)`: `(((x) > (y)) ? (x) : (y))`. -/
def MAX (x y : Int) : Int := if x > y then x else y

/-- Macro `ABS(x)`: `(((x) < 0) ? -(x) : (x))`. -/
def ABS (x : Int) : Int := if x < 0 then neg x else x

/-- Macro `BITSHIFT(val, shift)`: `(((shift) >= 0) ? ((val) >> (shift)) : ((val) << -(shift)))`. -/
def BITSHIFT (val shift : Int) : Int :=
  if shift ≥ 0 then shr val shift.toNat else shl val (neg shift).toNat

/-- Macro `BITSET(x, n)`: `((x) | (1 << (n)))`. -/
def BITSET (x : Int) (n : Nat) : Int := bor x (shl 1 n)

/-- Macro `BITCLR(x, n)`: `((x) & (~(1 << (n))))`. -/
def BITCLR (x : Int) (n : Nat) : Int := band x (bnot (shl 1 n))

/-- Macro `BITGET(x, n)`: `(((x) >> (n)) & 0x1)`. -/
def BITGET (x : Int) (n : Nat) : Int := band (shr x n) 0x1

/-! ## macros.h: unsigned operands and `sizeof` -/

/-- Cast `(uint32_t)(x)`: the value reduced modulo `2^32`, that is the 32-bit pattern. -/
def uint32_t (x : Int) : Nat := toBits x

/-- C `a << n` on a 32-bit unsigned operand: the bits shifted above bit 31 are dropped. -/
def shlU32 (a n : Nat) : Nat := (a <<< n) % 4294967296

/-- Macro `FCC(ch1, ch2, ch3, ch4)`:
`(((uint32_t)(ch4) << 24) | ((uint32_t)(ch3) << 16) | ((uint32_t)(ch2) << 8) |
((uint32_t)(ch1) << 0))`. -/
def FCC (ch1 ch2 ch3 ch4 : Int) : Nat :=
  shlU32 (uint32_t ch4) 24 ||| shlU32 (uint32_t ch3) 16 ||| shlU32 (uint32_t ch2) 8
    ||| shlU32 (uint32_t ch1) 0

/-- What `sizeof` sees of the operand of `NUM_ARRAY_ELEM`: the size in bytes of the operand
itself, and the size of the object that `(array)[0]` designates. -/
structure Operand where
  sizeof_self : Nat
  sizeof_elem : Nat

/-- A true array `T[n]` with `sizeof(T) = s`: its size is `n * s`. -/
def arrayOf (n s : Nat) : Operand := ⟨n * s, s⟩

/-- A pointer `T*` (what an array decays to) on a target with pointers of `p` bytes. -/
def pointerTo (p s : Nat) : Operand := ⟨p, s⟩

/-- Macro `NUM_ARRAY_ELEM(array)`: `(sizeof(array) / sizeof((array)[0]))`. -/
def NUM_ARRAY_ELEM (array : Operand) : Nat := array.sizeof_self / array.sizeof_elem

/-! ## uctypes.h -/

/-- Target parameters that uctypes.h leaves to the compiler: the width of `size_t`, and the
values of `sizeof(void*)` and `sizeof(union MaxDataTypeSize)`. -/
structure Target where
  size_t_bits : Nat
  sizeof_void_ptr : Nat
  sizeof_MaxDataTypeSize : Nat

/-- Conversion of a non-negative value to `size_t`. -/
def size_t (t : Target) (n : Nat) : Nat := n % 2 ^ t.size_t_bits

/-- C `a + b` on `size_t`. -/
def uadd (t : Target) (a b : Nat) : Nat := (a + b) % 2 ^ t.size_t_bits

/-- C `a - b` on `size_t`: the difference modulo `2^size_t_bits`. -/
def usub (t : Target) (a b : Nat) : Nat :=
  (a % 2 ^ t.size_t_bits + 2 ^ t.size_t_bits - b % 2 ^ t.size_t_bits) % 2 ^ t.size_t_bits

/-- C `~a` on `size_t`. -/
def ucompl (t : Target) (a : Nat) : Nat := 2 ^ t.size_t_bits - 1 - a % 2 ^ t.size_t_bits

/-- Modelled from the spec: the type `Uint16` is used by uctypes.h but declared nowhere in the
sources; it is taken as the 16-bit unsigned integer of the 16-bit conversions.  This is the
cast `(Uint16)(x)`. -/
def Uint16 (x : Nat) : Nat := x % 65536

/-- Modelled from the spec: the type `Uint32` is used by uctypes.h but declared nowhere in the
sources; it is taken as the 32-bit unsigned integer of the 32-bit conversions.  This is the
cast `(Uint32)(x)`. -/
def Uint32 (x : Nat) : Nat := x % 4294967296

/-- Macro `NATIVE_ALIGNMENT`: `sizeof(void*)`. -/
def NATIVE_ALIGNMENT (t : Target) : Nat := size_t t t.sizeof_void_ptr

/-- Macro `NATIVE_ALIGNMENT_MASK`: `(NATIVE_ALIGNMENT - 1)`. -/
def NATIVE_ALIGNMENT_MASK (t : Target) : Nat := usub t (NATIVE_ALIGNMENT t) 1

/-- Macro `ROUND_UP_NATIVE_ALIGNMENT(nbytes)`:
`(Uint32 )((nbytes) & NATIVE_ALIGNMENT_MASK ?
(nbytes) + NATIVE_ALIGNMENT - ((nbytes) & NATIVE_ALIGNMENT_MASK) : (nbytes))`,
computed on `size_t` and then cast. -/
def ROUND_UP_NATIVE_ALIGNMENT (t : Target) (nbytes : Nat) : Nat :=
  Uint32 (if size_t t nbytes &&& NATIVE_ALIGNMENT_MASK t ≠ 0 then
      usub t (uadd t (size_t t nbytes) (NATIVE_ALIGNMENT t))
        (size_t t nbytes &&& NATIVE_ALIGNMENT_MASK t)
    else size_t t nbytes)

/-- Macro `MAX_DATATYPE_SIZE`: `sizeof(union MaxDataTypeSize)`. -/
def MAX_DATATYPE_SIZE (t : Target) : Nat := size_t t t.sizeof_MaxDataTypeSize

/-- Macro `MAX_DATATYPE_SIZE_MASK`: `(MAX_DATATYPE_SIZE - 1)`. -/
def MAX_DATATYPE_SIZE_MASK (t : Target) : Nat := usub t (MAX_DATATYPE_SIZE t) 1

/-- Macro `ROUND_UP_DATATYPE_SIZE(nbytes)`:
`(Uint32 )((nbytes) & MAX_DATATYPE_SIZE_MASK ?
(nbytes) + MAX_DATATYPE_SIZE - ((nbytes) & MAX_DATATYPE_SIZE_MASK) : (nbytes))`. -/
def ROUND_UP_DATATYPE_SIZE (t : Target) (nbytes : Nat) : Nat :=
  Uint32 (if size_t t nbytes &&& MAX_DATATYPE_SIZE_MASK t ≠ 0 then
      usub t (uadd t (size_t t nbytes) (MAX_DATATYPE_SIZE t))
        (size_t t nbytes &&& MAX_DATATYPE_SIZE_MASK t)
    else size_t t nbytes)

/-- Macro `ALIGNB(val, align)` of macros.h at operand type `size_t`, the type of a `sizeof`
alignment: `(((val) + ((align) - 1)) & ~((align) - 1))`. -/
def ALIGNB_size_t (t : Target) (val align : Nat) : Nat :=
  uadd t (size_t t val) (usub t align 1) &&& ucompl t (usub t align 1)

/-- Which of the two endianness symbols are defined when uctypes.h is included. -/
structure Endian where
  BIG_ENDIAN : Bool
  LITTLE_ENDIAN : Bool

/-- Macro `htons(x)`.  With only `BIG_ENDIAN` defined it is `(x)`; with only `LITTLE_ENDIAN`
it is `((((Uint16)(x) & 0xFF00) >> 8) | (((Uint16)(x) & 0x00FF) << 8))`, computed on `int`
after promotion, where every intermediate value lies in `0..65535`; otherwise the
replacement text does not compile and the result is `none`. -/
def htons (e : Endian) (x : Nat) : Option Nat :=
  if e.BIG_ENDIAN && !e.LITTLE_ENDIAN then some x
  else if e.LITTLE_ENDIAN && !e.BIG_ENDIAN then
    some (((Uint16 x &&& 0xFF00) >>> 8) ||| ((Uint16 x &&& 0x00FF) <<< 8))
  else none

/-- Macro `htonl(x)`.  With only `BIG_ENDIAN` defined it is `(x)`; with only `LITTLE_ENDIAN`
it is `((((Uint32)(x) & 0xFF000000) >> 24) | (((Uint32)(x) & 0x00FF0000) >> 8) |
(((Uint32)(x) & 0x0000FF00) << 8) | (((Uint32)(x) & 0x000000FF) << 24))` on 32-bit
unsigned operands; otherwise `none`. -/
def htonl (e : Endian) (x : Nat) : Option Nat :=
  if e.BIG_ENDIAN && !e.LITTLE_ENDIAN then some x
  else if e.LITTLE_ENDIAN && !e.BIG_ENDIAN then
    some (((Uint32 x &&& 0xFF000000) >>> 24) ||| ((Uint32 x &&& 0x00FF0000) >>> 8)
      ||| shlU32 (Uint32 x &&& 0x0000FF00) 8 ||| shlU32 (Uint32 x &&& 0x000000FF) 24)
  else none

/-- Macro `ntohs`: `(x)` when big-endian, the name `htons` when little-endian. -/
def ntohs (e : Endian) (x : Nat) : Option Nat :=
  if e.BIG_ENDIAN && !e.LITTLE_ENDIAN then some x
  else if e.LITTLE_ENDIAN && !e.BIG_ENDIAN then htons e x
  else none

/-- Macro `ntohl`: `(x)` when big-endian, the name `htonl` when little-endian. -/
def ntohl (e : Endian) (x : Nat) : Option Nat :=
  if e.BIG_ENDIAN && !e.LITTLE_ENDIAN then some x
  else if e.LITTLE_ENDIAN && !e.BIG_ENDIAN then htonl e x
  else none

/-! ## Specification predicates -/

/-- Byte `k` of a value: `(x >> (8*k)) & 0xFF`. -/
def byteOf (x k : Nat) : Nat := (x >>> (8 * k)) &&& 0xFF

/-- The world `w` with the run-time level global set to `T`. -/
def atLevel {σ : Type} (w : World σ) (T : Fin 65536) : World σ :=
  { w with g_currentPrintLevel := T }

/-- The build `b` with `CURRENT_PRINT_LEVEL` defined as `T`. -/
def withLevel (b : Build) (T : Int) : Build :=
  { b with CURRENT_PRINT_LEVEL := T }

/-- A scope argument that is a single operand `e`. -/
def singleScope {σ : Type} (e : Arg σ) : ScopeArg σ := ⟨e, []⟩

/-- An operand without side effects whose value is `v`. -/
def constArg {σ : Type} (v : Int) : Arg σ := fun m => (v, m)

/-- The message scope `M`: the value of the scope argument taken by itself, as if it were
written in parentheses. -/
def scopeValue {σ : Type} (scope : ScopeArg σ) (w : World σ) : Int :=
  chainValue (scope.head w.mem).1 (evalOperands scope.tail (scope.head w.mem).2).1

/-- The value that `SPRINT` tests in world `w`. -/
def sprintTest {σ : Type} (scope : ScopeArg σ) (w : World σ) : Int :=
  maskThenScope (w.g_currentPrintScope.val : Int) (scope.head w.mem).1
    (evalOperands scope.tail (scope.head w.mem).2).1

/-- The scope part of the value that `SPRINTW`, `SPRINTI`, `SPRINTD`, `SPRINTV` test in
world `w`. -/
def sprintLevelTest {σ : Type} (scope : ScopeArg σ) (w : World σ) : Int :=
  scopeThenMask (w.g_currentPrintScope.val : Int) (scope.head w.mem).1
    (evalOperands scope.tail (scope.head w.mem).2).1

/-- Holds when bit `i` of the 32-bit pattern of `m` is set for some `i` in `0..15`. -/
def hasLowScopeBit (m : Int) : Prop := ∃ i : Nat, i < 16 ∧ (toBits m).testBit i = true

/-- Holds when `r` is the smallest multiple of `a` that is at least `v`. -/
def IsLeastMultipleGE (r v a : Int) : Prop :=
  a ∣ r ∧ v ≤ r ∧ ∀ m : Int, a ∣ m → v ≤ m → r ≤ m

/-- Holds when `r` is the greatest multiple of `a` that is at most `v`. -/
def IsGreatestMultipleLE (r v a : Int) : Prop :=
  a ∣ r ∧ r ≤ v ∧ ∀ m : Int, a ∣ m → m ≤ v → m ≤ r

/-! ## Sample inputs -/

/-- A debug build with run-time level control. -/
def runtimeBuild : Build := ⟨true, true, 0⟩

/-- A debug build with the level fixed at compile time to `PRINT_LEVEL_INFO`. -/
def staticBuild : Build := ⟨true, false, 2⟩

/-- A release build: `DEBUG_PRINT` is not defined. -/
def releaseBuild : Build := ⟨false, true, 0⟩

/-- A world whose memory is one counter; level `INFO`, scope mask `AREA00 | AREA01`. -/
def sampleWorld : World Nat := ⟨2, 3, [], 0⟩

/-- An argument expression with a side effect, `counter++`. -/
def postIncr : Arg Nat := fun m => ((m : Int), m + 1)

/-- A scope expression with a side effect: it yields `AREA01` and bumps the counter. -/
def scopeIncr : Arg Nat := fun m => (2, m + 1)

/-- The scope argument `PRINT_SCOPE_AREA00 | PRINT_SCOPE_AREA02` as written at a call site. -/
def scopeArea00or02 : ScopeArg Nat :=
  ⟨constArg PRINT_SCOPE_AREA00, [(BitOp.or, constArg PRINT_SCOPE_AREA02)]⟩

/-- The scope argument `PRINT_SCOPE_AREA00 | PRINT_SCOPE_NONE` as written at a call site. -/
def scopeArea00orNone : ScopeArg Nat :=
  ⟨constArg PRINT_SCOPE_AREA00, [(BitOp.or, constArg PRINT_SCOPE_NONE)]⟩

/-- A world at level `level` with scope mask `mask`, empty sink and counter 0. -/
def worldAt (level mask : Fin 65536) : World Nat := ⟨level, mask, [], 0⟩

/-- The little-endian configuration: only `LITTLE_ENDIAN` is defined. -/
def littleEndian : Endian := ⟨false, true⟩

/-- The big-endian configuration: only `BIG_ENDIAN` is defined. -/
def bigEndian : Endian := ⟨true, false⟩

/-- A 64-bit target: `size_t` has 64 bits, pointers and the widest scalar take 8 bytes. -/
def target64 : Target := ⟨64, 8, 8⟩

/-- A 32-bit target such as a Cortex-M3: 4-byte pointers, 8-byte `double`. -/
def target32 : Target := ⟨32, 4, 8⟩

/-! ## Facts about 32-bit `int` -/

theorem toBits_lt (x : Int) : toBits x < 4294967296 := by
  unfold toBits
  have h : x % 4294967296 < 4294967296 := Int.emod_lt_of_pos x (by norm_num)
  have h0 : 0 ≤ x % 4294967296 := Int.emod_nonneg x (by norm_num)
  omega

theorem toBits_ofBits (n : Nat) : toBits (ofBits n) = n % 4294967296 := by
  unfold toBits ofBits
  split <;> omega

theorem toBits_of_nonneg (x : Int) (h0 : 0 ≤ x) (h1 : x < 4294967296) :
    toBits x = x.toNat := by
  unfold toBits
  rw [Int.emod_eq_of_lt h0 h1]

theorem ofBits_of_lt (n : Nat) (h : n < 2147483648) : ofBits n = (n : Int) := by
  unfold ofBits
  split <;> omega

theorem wrap_of_isInt32 (x : Int) (h : isInt32 x) : wrap x = x := by
  unfold isInt32 at h
  unfold wrap toBits ofBits
  split <;> omega

theorem ofBits_isInt32 (n : Nat) : isInt32 (ofBits n) := by
  unfold isInt32 ofBits
  split <;> omega

theorem band_comm (a b : Int) : band a b = band b a := by
  unfold band
  rw [Nat.and_comm]

theorem band_zero_left (a : Int) : band 0 a = 0 := by
  unfold band
  have : toBits 0 = 0 := by decide
  rw [this, Nat.zero_and]
  decide

/-! ## Facts about the output primitive -/

theorem ucprintf_sink {σ : Type} (fmt : String) (args : List (Arg σ)) (w : World σ) :
    (ucprintf fmt args w).sink = w.sink ++ [(fmt, (evalArgs args w.mem).1)] := rfl

theorem ucprintf_emits {σ : Type} (fmt : String) (args : List (Arg σ)) (w : World σ) :
    (ucprintf fmt args w).sink ≠ w.sink := by
  intro h
  have hl := congrArg List.length h
  simp [ucprintf_sink] at hl

theorem not_emits_self {σ : Type} (w : World σ) : ¬ emits w w := fun h => h rfl

theorem emits_gate {σ : Type} (c : Prop) [Decidable c] (fmt : String) (args : List (Arg σ))
    (w : World σ) : emits w (if c then ucprintf fmt args w else w) ↔ c := by
  by_cases h : c
  · simp [emits, h, ucprintf_emits]
  · simp [emits, h]


theorem semits_gate {σ : Type} (c : Prop) [Decidable c] (fmt : String)
    (args : List (Arg σ)) (w w1 : World σ) (hs : w1.sink = w.sink) :
    semits w (if c then some (ucprintf fmt args w1) else some w1) ↔ c := by
  by_cases h : c
  · simp only [h, if_true, iff_true]
    exact ⟨_, rfl, by rw [← hs]; exact ucprintf_emits fmt args w1⟩
  · simp only [h, if_false, iff_false]
    rintro ⟨w2, h2, hne⟩
    cases h2
    exact hne hs

/-! ## debug.h: the print gate -/

/-- C1. In a build with `DEBUG_PRINT`, at every active threshold (the compile-time constant,
of any integer value, or the 16-bit global): `PRINT` always emits, `PRINTW` emits iff the
threshold is at most `PRINT_LEVEL_WARN`, `PRINTI` iff at most `PRINT_LEVEL_INFO`, `PRINTD`
iff at most `PRINT_LEVEL_DEBUG`, `PRINTV` iff it equals `PRINT_LEVEL_ALL`; and the
documented table holds at the five named levels. -/
theorem print_level_gate {σ : Type} (b : Build) (hb : b.DEBUG_PRINT = true) (fmt : String)
    (args : List (Arg σ)) (w : World σ) :
    emits w (PRINT b fmt args w)
    ∧ (emits w (PRINTW b fmt args w) ↔ activeLevel b w ≤ PRINT_LEVEL_WARN)
    ∧ (emits w (PRINTI b fmt args w) ↔ activeLevel b w ≤ PRINT_LEVEL_INFO)
    ∧ (emits w (PRINTD b fmt args w) ↔ activeLevel b w ≤ PRINT_LEVEL_DEBUG)
    ∧ (emits w (PRINTV b fmt args w) ↔ activeLevel b w = PRINT_LEVEL_ALL)
    ∧ (activeLevel b w = PRINT_LEVEL_NONE →
        ¬ emits w (PRINTW b fmt args w) ∧ ¬ emits w (PRINTI b fmt args w)
        ∧ ¬ emits w (PRINTD b fmt args w) ∧ ¬ emits w (PRINTV b fmt args w))
    ∧ (activeLevel b w = PRINT_LEVEL_WARN →
        emits w (PRINTW b fmt args w) ∧ ¬ emits w (PRINTI b fmt args w)
        ∧ ¬ emits w (PRINTD b fmt args w) ∧ ¬ emits w (PRINTV b fmt args w))
    ∧ (activeLevel b w = PRINT_LEVEL_INFO →
        emits w (PRINTW b fmt args w) ∧ emits w (PRINTI b fmt args w)
        ∧ ¬ emits w (PRINTD b fmt args w) ∧ ¬ emits w (PRINTV b fmt args w))
    ∧ (activeLevel b w = PRINT_LEVEL_DEBUG →
        emits w (PRINTW b fmt args w) ∧ emits w (PRINTI b fmt args w)
        ∧ emits w (PRINTD b fmt args w) ∧ ¬ emits w (PRINTV b fmt args w))
    ∧ (activeLevel b w = PRINT_LEVEL_ALL →
        emits w (PRINTW b fmt args w) ∧ emits w (PRINTI b fmt args w)
        ∧ emits w (PRINTD b fmt args w) ∧ emits w (PRINTV b fmt args w)) := by
  have hW : emits w (PRINTW b fmt args w) ↔ activeLevel b w ≤ PRINT_LEVEL_WARN := by
    unfold PRINTW activeLevel
    rw [hb]
    cases hr : b.RUNTIME_PRINT_LEVEL <;> simp [emits_gate]
  have hI : emits w (PRINTI b fmt args w) ↔ activeLevel b w ≤ PRINT_LEVEL_INFO := by
    unfold PRINTI activeLevel
    rw [hb]
    cases hr : b.RUNTIME_PRINT_LEVEL <;> simp [emits_gate]
  have hD : emits w (PRINTD b fmt args w) ↔ activeLevel b w ≤ PRINT_LEVEL_DEBUG := by
    unfold PRINTD activeLevel
    rw [hb]
    cases hr : b.RUNTIME_PRINT_LEVEL <;> simp [emits_gate]
  have hV : emits w (PRINTV b fmt args w) ↔ activeLevel b w = PRINT_LEVEL_ALL := by
    unfold PRINTV activeLevel
    rw [hb]
    cases hr : b.RUNTIME_PRINT_LEVEL <;> simp [emits_gate]
  have hP : emits w (PRINT b fmt args w) := by
    unfold PRINT emits
    rw [hb]
    exact ucprintf_emits fmt args w
  refine ⟨hP, hW, hI, hD, hV, ?_, ?_, ?_, ?_, ?_⟩
  all_goals
    intro hT
    rw [hW, hI, hD, hV, hT]
    decide

/-- C1 at a sample input: the run-time build at level `INFO`. -/
theorem print_level_gate_witness :
    runtimeBuild.DEBUG_PRINT = true
    ∧ emits sampleWorld (PRINTI runtimeBuild "i=%d" [postIncr] sampleWorld)
    ∧ ¬ emits sampleWorld (PRINTD runtimeBuild "i=%d" [postIncr] sampleWorld) :=
  have h := print_level_gate runtimeBuild rfl "i=%d" [postIncr] sampleWorld
  ⟨rfl, h.2.2.1.mpr (by decide), fun hd => absurd (h.2.2.2.1.mp hd) (by decide)⟩


theorem bor_zero_left (a : Int) : bor 0 a = wrap a := by
  have h0 : toBits 0 = 0 := by decide
  unfold bor wrap
  rw [h0, Nat.zero_or]

theorem bxor_zero_left (a : Int) : bxor 0 a = wrap a := by
  have h0 : toBits 0 = 0 := by decide
  unfold bxor wrap
  rw [h0, Nat.zero_xor]

theorem wrap_band (a b : Int) : wrap (band a b) = band a b := by
  unfold band
  exact wrap_of_isInt32 _ (ofBits_isInt32 _)

/-- The chain evaluator follows the C precedence: `1 | 4 & 0` is `1`, `0 & 1 | 4` is `4`,
`6 ^ 3 & 1` is `7`, `1 | 2 ^ 2` is `1`, `6 & 3 ^ 5` is `7`, and `12 & 10 & 6` is `0`. -/
theorem chainValue_precedence :
    chainValue 1 [(BitOp.or, 4), (BitOp.and, 0)] = 1
    ∧ chainValue 0 [(BitOp.and, 1), (BitOp.or, 4)] = 4
    ∧ chainValue 6 [(BitOp.xor, 3), (BitOp.and, 1)] = 7
    ∧ chainValue 1 [(BitOp.or, 2), (BitOp.xor, 2)] = 1
    ∧ chainValue 6 [(BitOp.and, 3), (BitOp.xor, 5)] = 7
    ∧ chainValue 12 [(BitOp.and, 10), (BitOp.and, 6)] = 0 := by
  decide

theorem maskThenScope_single (g h : Int) : maskThenScope g h [] = band g h := by
  unfold maskThenScope chainValue
  simp only [chainGo]
  rw [bxor_zero_left, bor_zero_left, wrap_band, wrap_band]

theorem scopeThenMask_single (g h : Int) : scopeThenMask g h [] = band h g := by
  unfold scopeThenMask chainValue
  simp only [List.nil_append, chainGo]
  rw [bxor_zero_left, bor_zero_left, wrap_band, wrap_band]

theorem runtime_unscoped_gate {σ : Type} (b : Build) (hd : b.DEBUG_PRINT = true)
    (hr : b.RUNTIME_PRINT_LEVEL = true) (fmt : String) (args : List (Arg σ)) (w : World σ) :
    emits w (PRINT b fmt args w)
    ∧ (emits w (PRINTW b fmt args w) ↔ (w.g_currentPrintLevel.val : Int) ≤ PRINT_LEVEL_WARN)
    ∧ (emits w (PRINTI b fmt args w) ↔ (w.g_currentPrintLevel.val : Int) ≤ PRINT_LEVEL_INFO)
    ∧ (emits w (PRINTD b fmt args w) ↔ (w.g_currentPrintLevel.val : Int) ≤ PRINT_LEVEL_DEBUG)
    ∧ (emits w (PRINTV b fmt args w) ↔ (w.g_currentPrintLevel.val : Int) = PRINT_LEVEL_ALL) := by
  unfold PRINT PRINTW PRINTI PRINTD PRINTV
  simp only [hd, hr, if_true, Bool.not_true, Bool.false_eq_true, if_false]
  exact ⟨ucprintf_emits fmt args w, emits_gate _ fmt args w, emits_gate _ fmt args w,
    emits_gate _ fmt args w, emits_gate _ fmt args w⟩

/-- In the run-time build each scoped macro emits exactly when its pasted test is non-zero
(and, for the level-qualified ones, the level test passes). -/
theorem runtime_scoped_gate {σ : Type} (b : Build) (hd : b.DEBUG_PRINT = true)
    (hr : b.RUNTIME_PRINT_LEVEL = true) (scope : ScopeArg σ) (fmt : String)
    (args : List (Arg σ)) (w : World σ) :
    (semits w (SPRINT b scope fmt args w) ↔ sprintTest scope w ≠ 0)
    ∧ (semits w (SPRINTW b scope fmt args w) ↔
      sprintLevelTest scope w ≠ 0 ∧ (w.g_currentPrintLevel.val : Int) ≤ PRINT_LEVEL_WARN)
    ∧ (semits w (SPRINTI b scope fmt args w) ↔
      sprintLevelTest scope w ≠ 0 ∧ (w.g_currentPrintLevel.val : Int) ≤ PRINT_LEVEL_INFO)
    ∧ (semits w (SPRINTD b scope fmt args w) ↔
      sprintLevelTest scope w ≠ 0 ∧ (w.g_currentPrintLevel.val : Int) ≤ PRINT_LEVEL_DEBUG)
    ∧ (semits w (SPRINTV b scope fmt args w) ↔
      sprintLevelTest scope w ≠ 0 ∧ (w.g_currentPrintLevel.val : Int) ≤ PRINT_LEVEL_ALL) := by
  unfold SPRINT SPRINTW SPRINTI SPRINTD SPRINTV sprintTest sprintLevelTest
  simp only [hd, hr, if_true, Bool.not_true, Bool.false_eq_true, if_false]
  exact ⟨semits_gate _ fmt args w _ (by rfl), semits_gate _ fmt args w _ (by rfl),
    semits_gate _ fmt args w _ (by rfl), semits_gate _ fmt args w _ (by rfl),
    semits_gate _ fmt args w _ (by rfl)⟩

/-- For a scope argument that is a single operand the pasted tests are `S & M` and `M & S`:
there each scoped macro emits iff `(S & M) != 0` and its level test passes. -/
theorem scoped_gate_single_operand {σ : Type} (b : Build) (hd : b.DEBUG_PRINT = true)
    (hr : b.RUNTIME_PRINT_LEVEL = true) (e : Arg σ) (fmt : String) (args : List (Arg σ))
    (w : World σ) :
    (semits w (SPRINT b (singleScope e) fmt args w) ↔
      band (w.g_currentPrintScope.val : Int) (e w.mem).1 ≠ 0)
    ∧ (semits w (SPRINTW b (singleScope e) fmt args w) ↔
      band (w.g_currentPrintScope.val : Int) (e w.mem).1 ≠ 0
        ∧ (w.g_currentPrintLevel.val : Int) ≤ 3)
    ∧ (semits w (SPRINTI b (singleScope e) fmt args w) ↔
      band (w.g_currentPrintScope.val : Int) (e w.mem).1 ≠ 0
        ∧ (w.g_currentPrintLevel.val : Int) ≤ 2)
    ∧ (semits w (SPRINTD b (singleScope e) fmt args w) ↔
      band (w.g_currentPrintScope.val : Int) (e w.mem).1 ≠ 0
        ∧ (w.g_currentPrintLevel.val : Int) ≤ 1)
    ∧ (semits w (SPRINTV b (singleScope e) fmt args w) ↔
      band (w.g_currentPrintScope.val : Int) (e w.mem).1 ≠ 0
        ∧ (w.g_currentPrintLevel.val : Int) = 0) := by
  obtain ⟨s0, sW, sI, sD, sV⟩ := runtime_scoped_gate b hd hr (singleScope e) fmt args w
  have hL : sprintTest (singleScope e) w
      = band (w.g_currentPrintScope.val : Int) (e w.mem).1 := by
    unfold sprintTest singleScope
    simp only [evalOperands]
    exact maskThenScope_single _ _
  have hR : sprintLevelTest (singleScope e) w
      = band (w.g_currentPrintScope.val : Int) (e w.mem).1 := by
    unfold sprintLevelTest singleScope
    simp only [evalOperands]
    rw [scopeThenMask_single, band_comm]
  rw [hL] at s0
  rw [hR] at sW sI sD sV
  refine ⟨s0, sW, sI, sD, ?_⟩
  rw [sV]
  have h0 : (0 : Int) ≤ (w.g_currentPrintLevel.val : Int) := Int.ofNat_nonneg _
  unfold PRINT_LEVEL_ALL
  exact ⟨fun h => ⟨h.1, by omega⟩, fun h => ⟨h.1, by omega⟩⟩

/-- C2, evaluated at the failing input. With mask `PRINT_SCOPE_AREA01` and level `INFO`, the
call `SPRINTW(PRINT_SCOPE_AREA00 | PRINT_SCOPE_AREA02, ..)` has message scope `M = 5` and
`(S & M) == 0`, yet the pasted test `1 | (4 & 2)` is `1`: `SPRINTW` and `SPRINTI` emit.
`SPRINTD` does not, because its level test fails. -/
theorem sprintw_emits_outside_mask :
    scopeValue scopeArea00or02 (worldAt 2 2) = 5
    ∧ band (((worldAt 2 2).g_currentPrintScope.val : Nat) : Int)
        (scopeValue scopeArea00or02 (worldAt 2 2)) = 0
    ∧ sprintLevelTest scopeArea00or02 (worldAt 2 2) = 1
    ∧ semits (worldAt 2 2) (SPRINTW runtimeBuild scopeArea00or02 "w" [] (worldAt 2 2))
    ∧ semits (worldAt 2 2) (SPRINTI runtimeBuild scopeArea00or02 "i" [] (worldAt 2 2))
    ∧ ¬ semits (worldAt 2 2) (SPRINTD runtimeBuild scopeArea00or02 "d" [] (worldAt 2 2)) := by
  have gW := (runtime_scoped_gate runtimeBuild rfl rfl scopeArea00or02 "w" [] (worldAt 2 2)).2.1
  have gI :=
    (runtime_scoped_gate runtimeBuild rfl rfl scopeArea00or02 "i" [] (worldAt 2 2)).2.2.1
  have gD :=
    (runtime_scoped_gate runtimeBuild rfl rfl scopeArea00or02 "d" [] (worldAt 2 2)).2.2.2.1
  refine ⟨by decide, by decide, by decide, gW.mpr (by decide), gI.mpr (by decide), ?_⟩
  intro h
  exact absurd (gD.mp h).2 (by decide)

/-- C3, evaluated at the failing input. With mask `PRINT_SCOPE_NONE` (and level `NONE`) the
call `SPRINT(PRINT_SCOPE_AREA00 | PRINT_SCOPE_AREA02, ..)` has `(S & M) == 0`, yet the
pasted test `(0 & 1) | 4` is `4` and `SPRINT` emits. -/
theorem sprint_emits_with_scope_none :
    (((worldAt 4 0).g_currentPrintScope.val : Nat) : Int) = PRINT_SCOPE_NONE
    ∧ band (((worldAt 4 0).g_currentPrintScope.val : Nat) : Int)
        (scopeValue scopeArea00or02 (worldAt 4 0)) = 0
    ∧ sprintTest scopeArea00or02 (worldAt 4 0) = 4
    ∧ semits (worldAt 4 0) (SPRINT runtimeBuild scopeArea00or02 "s" [] (worldAt 4 0)) := by
  have g := (runtime_scoped_gate runtimeBuild rfl rfl scopeArea00or02 "s" [] (worldAt 4 0)).1
  exact ⟨by decide, by decide, by decide, g.mpr (by decide)⟩

/-- C4. Without `DEBUG_PRINT` each of the ten gate macros is a no-op for every level, scope
mask, scope argument and argument list: the whole state (globals, sink, and the memory that
evaluating an argument would have changed) is returned unchanged. -/
theorem disabled_is_noop {σ : Type} (b : Build) (hd : b.DEBUG_PRINT = false)
    (scope : ScopeArg σ) (fmt : String) (args : List (Arg σ)) (w : World σ) :
    PRINT b fmt args w = w ∧ PRINTW b fmt args w = w ∧ PRINTI b fmt args w = w
    ∧ PRINTD b fmt args w = w ∧ PRINTV b fmt args w = w
    ∧ SPRINT b scope fmt args w = some w ∧ SPRINTW b scope fmt args w = some w
    ∧ SPRINTI b scope fmt args w = some w ∧ SPRINTD b scope fmt args w = some w
    ∧ SPRINTV b scope fmt args w = some w := by
  unfold PRINT PRINTW PRINTI PRINTD PRINTV SPRINT SPRINTW SPRINTI SPRINTD SPRINTV
  simp [hd]

/-- C4 at a sample input: side-effecting scope and argument expressions leave the counter
untouched in the release build. -/
theorem disabled_is_noop_witness :
    releaseBuild.DEBUG_PRINT = false
    ∧ PRINTW releaseBuild "i=%d" [postIncr] sampleWorld = sampleWorld
    ∧ SPRINT releaseBuild (singleScope scopeIncr) "i=%d" [postIncr] sampleWorld
      = some sampleWorld :=
  have h := disabled_is_noop releaseBuild rfl (singleScope scopeIncr) "i=%d" [postIncr]
    sampleWorld
  ⟨rfl, h.2.1, h.2.2.2.2.2.1⟩


/-! ## macros.h: masks of a power of two -/

theorem and_high_mask (x k : Nat) (hx : x < 4294967296) (hk : k ≤ 32) :
    x &&& (4294967296 - 2 ^ k) = x - x % 2 ^ k := by
  have e32 : (4294967296 : Nat) = 2 ^ 32 := by norm_num
  have h1 : 4294967296 - 2 ^ k = (2 ^ (32 - k) - 1) <<< k := by
    rw [Nat.shiftLeft_eq, Nat.sub_mul, one_mul, ← pow_add, Nat.sub_add_cancel hk]
    norm_num
  have h2 : x - x % 2 ^ k = (x >>> k) <<< k := by
    rw [Nat.shiftLeft_eq, Nat.shiftRight_eq_div_pow]
    have := Nat.div_add_mod x (2 ^ k)
    rw [mul_comm] at this
    omega
  rw [h1, h2]
  apply Nat.eq_of_testBit_eq
  intro i
  simp only [Nat.testBit_and, Nat.testBit_shiftLeft, Nat.testBit_shiftRight,
    Nat.testBit_two_pow_sub_one]
  by_cases hik : k ≤ i
  · have e : k + (i - k) = i := by omega
    by_cases hi : i < 32
    · have : i - k < 32 - k := by omega
      simp [hik, this, e]
    · have hxi : x.testBit i = false := by
        apply Nat.testBit_lt_two_pow
        calc x < 2 ^ 32 := by rw [← e32]; exact hx
          _ ≤ 2 ^ i := Nat.pow_le_pow_right (by norm_num) (by omega)
      simp [hxi, e]
  · simp [hik]

theorem two_pow_le (k : Nat) (hk : k ≤ 30) : 2 ^ k ≤ 1073741824 :=
  calc 2 ^ k ≤ 2 ^ 30 := Nat.pow_le_pow_right (by norm_num) hk
    _ = 1073741824 := by norm_num

theorem two_pow_cast (k : Nat) : ((2 : Int) ^ k) = ((2 ^ k : Nat) : Int) := by
  push_cast
  rfl

theorem sub_one_pow2 (k : Nat) (hk : k ≤ 30) :
    sub ((2 : Int) ^ k) 1 = (2 : Int) ^ k - 1 := by
  have h1 : 1 ≤ 2 ^ k := Nat.one_le_two_pow
  have h2 := two_pow_le k hk
  unfold sub
  apply wrap_of_isInt32
  rw [two_pow_cast]
  unfold isInt32
  omega

theorem toBits_mask (k : Nat) (hk : k ≤ 30) :
    toBits (bnot (sub ((2 : Int) ^ k) 1)) = 4294967296 - 2 ^ k := by
  have h1 : 1 ≤ 2 ^ k := Nat.one_le_two_pow
  have h2 := two_pow_le k hk
  rw [sub_one_pow2 k hk, two_pow_cast]
  unfold bnot
  rw [toBits_ofBits]
  unfold toBits
  omega

theorem floor_mask_bits (v : Int) (k : Nat) (hk : k ≤ 30) (hv : isInt32 v) :
    ofBits (toBits v - toBits v % 2 ^ k) = v / 2 ^ k * 2 ^ k := by
  have hP1 : 1 ≤ 2 ^ k := Nat.one_le_two_pow
  have hdvd31 : 2 ^ k * 2 ^ (31 - k) = 2147483648 := by
    rw [← pow_add, Nat.add_sub_cancel' (by omega)]
    norm_num
  have hdvd32 : ((2 : Int) ^ k) ∣ 4294967296 := by
    refine ⟨2 ^ (32 - k), ?_⟩
    rw [← pow_add, Nat.add_sub_cancel' (by omega)]
    norm_num
  have hb : ((toBits v : Nat) : Int) = v % 4294967296 := by
    unfold toBits
    exact Int.toNat_of_nonneg (Int.emod_nonneg _ (by norm_num))
  have hmod : ((toBits v % 2 ^ k : Nat) : Int) = v % 2 ^ k := by
    rw [Int.natCast_mod, hb]
    push_cast
    exact Int.emod_emod_of_dvd _ hdvd32
  have hhigh : 2147483648 ≤ toBits v → 2147483648 ≤ toBits v - toBits v % 2 ^ k := by
    intro h
    have h3 := Nat.div_add_mod (toBits v) (2 ^ k)
    have h4 : 2 ^ (31 - k) ≤ toBits v / 2 ^ k := by
      rw [Nat.le_div_iff_mul_le (by omega), mul_comm]
      omega
    have h5 := Nat.mul_le_mul_left (2 ^ k) h4
    omega
  have hdiv : v / 2 ^ k * 2 ^ k = v - v % 2 ^ k := by
    have := Int.ediv_add_emod v (2 ^ k)
    linarith
  have hmodle : toBits v % 2 ^ k ≤ toBits v := Nat.mod_le _ _
  rw [hdiv, ← hmod]
  unfold ofBits
  unfold isInt32 at hv
  split <;> omega

/-- The mask form of the floor is the floor of the mathematical quotient, for every `int`
operand, negative ones included. -/
theorem FLOORB_pow2 (v : Int) (k : Nat) (hk : k ≤ 30) (hv : isInt32 v) :
    FLOORB v (2 ^ k) = v / 2 ^ k * 2 ^ k := by
  unfold FLOORB band
  rw [toBits_mask k hk, and_high_mask _ k (toBits_lt v) (by omega)]
  exact floor_mask_bits v k hk hv


/-! ## macros.h: the division forms -/

theorem FLOOR_nonneg_eq (v a : Int) (hv0 : 0 ≤ v) (hv1 : v < 2147483648) (ha : 0 < a) :
    FLOOR v a = v / a * a := by
  have hq0 : 0 ≤ v / a := Int.ediv_nonneg hv0 (le_of_lt ha)
  have hqa : v / a * a ≤ v := Int.ediv_mul_le v (ne_of_gt ha)
  have hqa0 : 0 ≤ v / a * a := mul_nonneg hq0 (le_of_lt ha)
  have hq1 : v / a ≤ v / a * a := le_mul_of_one_le_right hq0 ha
  unfold FLOOR mul div
  rw [Int.tdiv_eq_ediv hv0 (le_of_lt ha), wrap_of_isInt32 (v / a) ⟨by omega, by omega⟩,
    wrap_of_isInt32 _ ⟨by omega, by omega⟩]

theorem FLOOR_neg_eq (v a : Int) (hv0 : v < 0) (hv1 : -2147483648 ≤ v) (ha : 0 < a) :
    FLOOR v a = v + (-v) % a := by
  have hu : 0 ≤ -v := by omega
  have ht : v.tdiv a = -((-v) / a) := by
    have h := Int.neg_tdiv (-v) a
    rw [neg_neg, Int.tdiv_eq_ediv hu (le_of_lt ha)] at h
    exact h
  have hq0 : 0 ≤ (-v) / a := Int.ediv_nonneg hu (le_of_lt ha)
  have hqa : (-v) / a * a ≤ -v := Int.ediv_mul_le (-v) (ne_of_gt ha)
  have hq1 : (-v) / a ≤ (-v) / a * a := le_mul_of_one_le_right hq0 ha
  have hm : (-v) / a * a = -v - (-v) % a := by
    have := Int.ediv_add_emod (-v) a
    linarith
  unfold FLOOR mul div
  rw [ht, wrap_of_isInt32 (-((-v) / a)) ⟨by omega, by omega⟩, neg_mul, hm,
    wrap_of_isInt32 _ ⟨by omega, by omega⟩]
  ring

theorem ALIGN_eq_FLOOR (v a : Int) (ha0 : 0 < a) (ha1 : a ≤ 2147483648)
    (hs : isInt32 (v + (a - 1))) : ALIGN v a = FLOOR (v + (a - 1)) a := by
  unfold ALIGN FLOOR add sub
  rw [wrap_of_isInt32 (a - 1) ⟨by omega, by omega⟩, wrap_of_isInt32 _ hs]

theorem ALIGNB_eq_FLOORB (v a : Int) (ha0 : 0 < a) (ha1 : a < 2147483648)
    (hs : isInt32 (v + (a - 1))) : ALIGNB v a = FLOORB (v + (a - 1)) a := by
  unfold ALIGNB FLOORB add
  have h1 : sub a 1 = a - 1 := wrap_of_isInt32 (a - 1) ⟨by omega, by omega⟩
  rw [h1, wrap_of_isInt32 _ hs]

theorem floor_isGreatest (v a : Int) (ha : 0 < a) : IsGreatestMultipleLE (v / a * a) v a := by
  refine ⟨Dvd.intro_left _ rfl, Int.ediv_mul_le v (ne_of_gt ha), ?_⟩
  rintro m ⟨c, rfl⟩ hm
  have hc : c ≤ v / a := by
    rw [Int.le_ediv_iff_mul_le ha, mul_comm]
    exact hm
  rw [mul_comm a c]
  exact mul_le_mul_of_nonneg_right hc (le_of_lt ha)

theorem ceil_isLeast (v a : Int) (ha : 0 < a) :
    IsLeastMultipleGE ((v + (a - 1)) / a * a) v a := by
  have hm : (v + (a - 1)) / a * a = v + (a - 1) - (v + (a - 1)) % a := by
    have := Int.ediv_add_emod (v + (a - 1)) a
    linarith
  have hlt := Int.emod_lt_of_pos (v + (a - 1)) ha
  refine ⟨Dvd.intro_left _ rfl, by omega, ?_⟩
  rintro m ⟨c, rfl⟩ hv
  have hc : (v + (a - 1)) / a < c + 1 := by
    apply Int.ediv_lt_of_lt_mul ha
    have : (c + 1) * a = a * c + a := by ring
    omega
  have hc2 : (v + (a - 1)) / a ≤ c := by omega
  rw [mul_comm a c]
  exact mul_le_mul_of_nonneg_right hc2 (le_of_lt ha)


theorem floor_props (v a : Int) (ha : 0 < a) :
    IsGreatestMultipleLE (v / a * a) v a ∧ v - a < v / a * a ∧ v / a * a ≤ v
    ∧ (v / a * a = v ↔ a ∣ v) := by
  have hm : v / a * a = v - v % a := by
    have := Int.ediv_add_emod v a
    linarith
  have hlt := Int.emod_lt_of_pos v ha
  have h0 := Int.emod_nonneg v (ne_of_gt ha)
  refine ⟨floor_isGreatest v a ha, by omega, by omega, ?_⟩
  rw [Int.dvd_iff_emod_eq_zero]
  omega

theorem floorb_eq_floor_iff (u : Int) (k : Nat) (hk : k ≤ 30) (hu : isInt32 u) :
    FLOORB u (2 ^ k) = FLOOR u (2 ^ k) ↔ (0 ≤ u ∨ (2 : Int) ^ k ∣ u) := by
  have ha : (0 : Int) < 2 ^ k := by positivity
  rw [FLOORB_pow2 u k hk hu]
  by_cases h0 : 0 ≤ u
  · rw [FLOOR_nonneg_eq u _ h0 hu.2 ha]
    simp [h0]
  · have hneg : u < 0 := by omega
    rw [FLOOR_neg_eq u _ hneg hu.1 ha]
    have hm : u / 2 ^ k * 2 ^ k = u - u % 2 ^ k := by
      have := Int.ediv_add_emod u (2 ^ k)
      linarith
    have h1 := Int.emod_nonneg u (ne_of_gt ha)
    have h2 := Int.emod_nonneg (-u) (ne_of_gt ha)
    rw [hm, Int.dvd_iff_emod_eq_zero]
    constructor
    · intro h
      right
      omega
    · rintro (h | h)
      · omega
      · have h3 : (-u) % 2 ^ k = 0 := by
          rw [← Int.dvd_iff_emod_eq_zero, Int.dvd_neg, Int.dvd_iff_emod_eq_zero]
          exact h
        omega

/-! ## macros.h: alignment -/

/-- C5. For every non-negative `v` and positive `a` such that `v + a - 1` does not overflow,
`ALIGN(v, a)` and its alias `CEIL` are the smallest multiple of `a` that is at least `v`;
`ALIGN(0, a) == 0`, `ALIGN(a, a) == a` (when `a + a - 1` does not overflow), and
`ALIGN(13, 8) == 16`. -/
theorem align_least_multiple (v a : Int) (hv : 0 ≤ v) (ha : 0 < a)
    (hno : v + a - 1 < 2147483648) :
    IsLeastMultipleGE (ALIGN v a) v a ∧ IsLeastMultipleGE (CEIL v a) v a
    ∧ ALIGN 0 a = 0 ∧ (a + a - 1 < 2147483648 → ALIGN a a = a) ∧ ALIGN 13 8 = 16 := by
  have key : ∀ u : Int, 0 ≤ u → u + a - 1 < 2147483648 →
      ALIGN u a = (u + (a - 1)) / a * a := by
    intro u hu hu1
    rw [ALIGN_eq_FLOOR u a ha (by omega) ⟨by omega, by omega⟩,
      FLOOR_nonneg_eq _ a (by omega) (by omega) ha]
  have h1 : IsLeastMultipleGE (ALIGN v a) v a := by
    rw [key v hv hno]
    exact ceil_isLeast v a ha
  refine ⟨h1, h1, ?_, ?_, by decide⟩
  · rw [key 0 (le_refl 0) (by omega), zero_add,
      Int.ediv_eq_zero_of_lt (by omega) (by omega), zero_mul]
  · intro h2
    rw [key a (le_of_lt ha) h2]
    have hq1 : 1 ≤ (a + (a - 1)) / a := by
      rw [Int.le_ediv_iff_mul_le ha]
      omega
    have hq2 : (a + (a - 1)) / a < 2 := by
      rw [Int.ediv_lt_iff_lt_mul ha]
      omega
    have hq : (a + (a - 1)) / a = 1 := by omega
    rw [hq, one_mul]

/-- C5 at a sample input: `ALIGN(13, 8)` is a multiple of 8, at least 13, and least such. -/
theorem align_least_multiple_witness :
    (0 : Int) ≤ 13 ∧ (0 : Int) < 8 ∧ (13 : Int) + 8 - 1 < 2147483648
    ∧ IsLeastMultipleGE (ALIGN 13 8) 13 8 :=
  ⟨by decide, by decide, by decide,
    (align_least_multiple 13 8 (by decide) (by decide) (by decide)).1⟩

/-- C6, as stated, fails on negative operands: `FLOORB(-3, 2)` is `-4` and `FLOOR(-3, 2)` is
`-2`; `ALIGNB(-5, 4)` is `-4` and `ALIGN(-5, 4)` is `0`.  Both inputs are in range, the
alignments are powers of two and `v + a - 1` does not overflow. -/
theorem mask_forms_differ_on_negative :
    isInt32 (-3) ∧ (2 : Int) = 2 ^ 1 ∧ isInt32 (-3 + (2 - 1))
    ∧ FLOORB (-3) 2 = -4 ∧ FLOOR (-3) 2 = -2 ∧ FLOORB (-3) 2 ≠ FLOOR (-3) 2
    ∧ isInt32 (-5) ∧ (4 : Int) = 2 ^ 2 ∧ isInt32 (-5 + (4 - 1))
    ∧ ALIGNB (-5) 4 = -4 ∧ ALIGN (-5) 4 = 0 ∧ CEILB (-5) 4 ≠ CEIL (-5) 4 := by
  decide

/-- C6, amended. For every `int` `v` and power of two `a` with `v + a - 1` in range, the
mask forms equal the division forms exactly where C division does not truncate upward:
`ALIGNB == ALIGN` and `CEILB == CEIL` iff `v + a - 1 >= 0` or `a` divides `v + a - 1`, and
`FLOORB == FLOOR` iff `v >= 0` or `a` divides `v`; in particular all three agree for every
non-negative `v`. -/
theorem mask_forms_agree_iff (v : Int) (k : Nat) (hk : k ≤ 30) (hv : isInt32 v)
    (hno : isInt32 (v + (2 ^ k - 1))) :
    (ALIGNB v (2 ^ k) = ALIGN v (2 ^ k) ↔
      (0 ≤ v + (2 ^ k - 1) ∨ (2 : Int) ^ k ∣ v + (2 ^ k - 1)))
    ∧ (CEILB v (2 ^ k) = CEIL v (2 ^ k) ↔
      (0 ≤ v + (2 ^ k - 1) ∨ (2 : Int) ^ k ∣ v + (2 ^ k - 1)))
    ∧ (FLOORB v (2 ^ k) = FLOOR v (2 ^ k) ↔ (0 ≤ v ∨ (2 : Int) ^ k ∣ v))
    ∧ (0 ≤ v → ALIGNB v (2 ^ k) = ALIGN v (2 ^ k) ∧ CEILB v (2 ^ k) = CEIL v (2 ^ k)
        ∧ FLOORB v (2 ^ k) = FLOOR v (2 ^ k)) := by
  have ha : (0 : Int) < 2 ^ k := by positivity
  have ha1 : (2 : Int) ^ k ≤ 1073741824 := by
    rw [two_pow_cast]
    exact_mod_cast two_pow_le k hk
  have hA : ALIGNB v (2 ^ k) = ALIGN v (2 ^ k) ↔
      (0 ≤ v + (2 ^ k - 1) ∨ (2 : Int) ^ k ∣ v + (2 ^ k - 1)) := by
    rw [ALIGNB_eq_FLOORB v _ ha (by omega) hno, ALIGN_eq_FLOOR v _ ha (by omega) hno]
    exact floorb_eq_floor_iff _ k hk hno
  have hF := floorb_eq_floor_iff v k hk hv
  refine ⟨hA, hA, hF, ?_⟩
  intro h0
  have hA1 := hA.mpr (Or.inl (by omega))
  exact ⟨hA1, hA1, hF.mpr (Or.inl h0)⟩

/-- C6 amended, at a sample input: `v = 13`, `a = 8`. -/
theorem mask_forms_agree_iff_witness :
    3 ≤ 30 ∧ isInt32 13 ∧ isInt32 (13 + (2 ^ 3 - 1))
    ∧ ALIGNB 13 (2 ^ 3) = ALIGN 13 (2 ^ 3) ∧ FLOORB 13 (2 ^ 3) = FLOOR 13 (2 ^ 3) :=
  have h := (mask_forms_agree_iff 13 3 (by decide) (by decide) (by decide)).2.2.2
    (by decide)
  ⟨by decide, by decide, by decide, h.1, h.2.2⟩

/-- C7. For every non-negative `v` and positive `a`, `FLOOR(v, a)` is the greatest multiple
of `a` that is at most `v`, so `v - a < FLOOR(v, a) <= v`, and `FLOOR(v, a) == v` iff `a`
divides `v`; for a power of two `a` the same holds of `FLOORB(v, a)`. -/
theorem floor_greatest_multiple (v a : Int) (hv : 0 ≤ v) (hv1 : v < 2147483648)
    (ha : 0 < a) :
    (IsGreatestMultipleLE (FLOOR v a) v a ∧ v - a < FLOOR v a ∧ FLOOR v a ≤ v
      ∧ (FLOOR v a = v ↔ a ∣ v))
    ∧ ∀ k : Nat, k ≤ 30 → a = 2 ^ k →
      (IsGreatestMultipleLE (FLOORB v a) v a ∧ v - a < FLOORB v a ∧ FLOORB v a ≤ v
        ∧ (FLOORB v a = v ↔ a ∣ v)) := by
  constructor
  · rw [FLOOR_nonneg_eq v a hv hv1 ha]
    exact floor_props v a ha
  · intro k hk hak
    subst hak
    rw [FLOORB_pow2 v k hk ⟨by omega, hv1⟩]
    exact floor_props v _ ha

/-- C7 at a sample input: `v = 13`, `a = 8 = 2^3`. -/
theorem floor_greatest_multiple_witness :
    (0 : Int) ≤ 13 ∧ (13 : Int) < 2147483648 ∧ (0 : Int) < 8
    ∧ IsGreatestMultipleLE (FLOOR 13 8) 13 8 ∧ IsGreatestMultipleLE (FLOORB 13 8) 13 8 :=
  have h := floor_greatest_multiple 13 8 (by decide) (by decide) (by decide)
  ⟨by decide, by decide, by decide, h.1.1, (h.2 3 (by decide) (by norm_num)).1⟩


/-! ## macros.h: clamping -/

/-- C8. `CLIP(v, lo, hi)` returns `lo` if `v < lo`, else `hi` if `v > hi`, else `v` (the
cases are tried in this order); when `lo <= hi` the cases are disjoint, the result lies in
`[lo, hi]`, and it equals `v` exactly when `lo <= v <= hi`; `CLIP(300, 0, 255) == 255`. -/
theorem clip_cases_and_bounds (v lo hi : Int) :
    (v < lo → CLIP v lo hi = lo)
    ∧ (¬ v < lo → v > hi → CLIP v lo hi = hi)
    ∧ (¬ v < lo → ¬ v > hi → CLIP v lo hi = v)
    ∧ (lo ≤ hi →
        (v > hi → CLIP v lo hi = hi) ∧ lo ≤ CLIP v lo hi ∧ CLIP v lo hi ≤ hi
        ∧ (CLIP v lo hi = v ↔ (lo ≤ v ∧ v ≤ hi)))
    ∧ CLIP 300 0 255 = 255 := by
  unfold CLIP
  refine ⟨?_, ?_, ?_, ?_, by decide⟩
  · intro h
    simp [h]
  · intro h1 h2
    simp [h1, h2]
  · intro h1 h2
    simp [h1, h2]
  · intro h
    refine ⟨?_, ?_, ?_, ?_⟩
    · intro h2
      have h1 : ¬ v < lo := by omega
      simp [h1, h2]
    all_goals (split_ifs <;> omega)

/-- C8 at a sample input: `CLIP(300, 0, 255)` lies in `[0, 255]`. -/
theorem clip_cases_and_bounds_witness :
    (0 : Int) ≤ 255 ∧ 0 ≤ CLIP 300 0 255 ∧ CLIP 300 0 255 ≤ 255 :=
  have h := (clip_cases_and_bounds 300 0 255).2.2.2.1 (by decide)
  ⟨by decide, h.2.1, h.2.2.1⟩

/-- C9, as stated, fails when the bounds are reversed: `CLIP(5, 10, 0)` is `10`, and
clipping `10` again gives `0`. -/
theorem clip_not_idempotent_reversed_bounds :
    CLIP 5 10 0 = 10 ∧ CLIP (CLIP 5 10 0) 10 0 = 0
    ∧ CLIP (CLIP 5 10 0) 10 0 ≠ CLIP 5 10 0 := by
  decide

/-- C9, amended. `CLIP(CLIP(v, lo, hi), lo, hi) == CLIP(v, lo, hi)` holds iff `lo <= hi`:
`CLIP` is idempotent for every `v` whenever `lo <= hi`, and for no `v` otherwise. -/
theorem clip_idempotent_iff (v lo hi : Int) :
    CLIP (CLIP v lo hi) lo hi = CLIP v lo hi ↔ lo ≤ hi := by
  unfold CLIP
  constructor
  · intro h
    split_ifs at h <;> omega
  · intro h
    split_ifs <;> omega

/-! ## macros.h: single bits -/

theorem testBit_toBits_ofBits (m i : Nat) :
    (toBits (ofBits m)).testBit i = (decide (i < 32) && m.testBit i) := by
  have e32 : (4294967296 : Nat) = 2 ^ 32 := by norm_num
  rw [toBits_ofBits, e32, Nat.testBit_mod_two_pow]

theorem testBit_toBits_ge (a : Int) (i : Nat) (hi : 32 ≤ i) : (toBits a).testBit i = false := by
  apply Nat.testBit_lt_two_pow
  calc toBits a < 4294967296 := toBits_lt a
    _ = 2 ^ 32 := by norm_num
    _ ≤ 2 ^ i := Nat.pow_le_pow_right (by norm_num) hi

theorem testBit_band (a b : Int) (i : Nat) :
    (toBits (band a b)).testBit i = ((toBits a).testBit i && (toBits b).testBit i) := by
  unfold band
  rw [testBit_toBits_ofBits, Nat.testBit_and]
  by_cases hi : i < 32
  · simp [hi]
  · simp [hi, testBit_toBits_ge a i (by omega)]

theorem testBit_bor (a b : Int) (i : Nat) :
    (toBits (bor a b)).testBit i = ((toBits a).testBit i || (toBits b).testBit i) := by
  unfold bor
  rw [testBit_toBits_ofBits, Nat.testBit_or]
  by_cases hi : i < 32
  · simp [hi]
  · simp [hi, testBit_toBits_ge a i (by omega), testBit_toBits_ge b i (by omega)]

theorem testBit_bnot (a : Int) (i : Nat) :
    (toBits (bnot a)).testBit i = (decide (i < 32) && !(toBits a).testBit i) := by
  unfold bnot
  have e : 4294967295 - toBits a = 2 ^ 32 - (toBits a + 1) := by
    have := toBits_lt a
    norm_num
    omega
  have hlt : toBits a < 2 ^ 32 := by
    have := toBits_lt a
    norm_num
    exact this
  rw [testBit_toBits_ofBits, e, Nat.testBit_two_pow_sub_succ hlt]
  by_cases hi : i < 32 <;> simp [hi]

theorem testBit_shl_one (n i : Nat) :
    (toBits (shl 1 n)).testBit i = (decide (i < 32) && decide (n = i)) := by
  unfold shl
  have h1 : toBits 1 = 1 := by decide
  rw [testBit_toBits_ofBits, h1, Nat.shiftLeft_eq, one_mul, Nat.testBit_two_pow]

theorem BITGET_eq (x : Int) (n : Nat) (hn : n < 32) :
    BITGET x n = if (toBits x).testBit n then 1 else 0 := by
  have h1 : toBits 0x1 = 1 := by decide
  have hd : (2 : Int) ^ n * 2 ^ (32 - n) = 4294967296 := by
    rw [← pow_add, Nat.add_sub_cancel' (by omega)]
    norm_num
  have hd2 : (2 : Int) ^ (32 - n) = 2 * 2 ^ (31 - n) := by
    rw [← pow_succ']
    congr 1
    omega
  have hpos : (0 : Int) < 2 ^ n := by positivity
  -- the bit of the pattern is the bit of the arithmetic quotient
  have hq : (x / 2 ^ n) % 2 = ((x % 4294967296) / 2 ^ n) % 2 := by
    have hx := Int.emod_add_ediv x 4294967296
    have e : x = x % 4294967296 + 2 ^ n * (2 * (2 ^ (31 - n) * (x / 4294967296))) := by
      rw [← mul_assoc 2, ← hd2, ← mul_assoc, hd]
      exact hx.symm
    conv_lhs => rw [e]
    rw [Int.add_mul_ediv_left _ _ (ne_of_gt hpos), Int.add_mul_emod_self_left]
  have hb : ((toBits x : Nat) : Int) = x % 4294967296 := by
    unfold toBits
    exact Int.toNat_of_nonneg (Int.emod_nonneg _ (by norm_num))
  have hy : toBits (x >>> n) % 2 = (toBits x / 2 ^ n) % 2 := by
    have hyb : ((toBits (x >>> n) : Nat) : Int) = (x >>> n) % 4294967296 := by
      unfold toBits
      exact Int.toNat_of_nonneg (Int.emod_nonneg _ (by norm_num))
    have h2 : ((toBits (x >>> n) % 2 : Nat) : Int) = ((toBits x / 2 ^ n % 2 : Nat) : Int) := by
      push_cast
      rw [hyb, hb, Int.shiftRight_eq_div_pow, Int.emod_emod_of_dvd _ (by norm_num)]
      exact_mod_cast hq
    exact_mod_cast h2
  unfold BITGET band shr
  rw [h1, Nat.and_one_is_mod, hy, Nat.testBit_to_div_mod]
  have hlt := Nat.mod_lt (toBits x / 2 ^ n) (show 0 < 2 by norm_num)
  by_cases hbit : toBits x / 2 ^ n % 2 = 1
  · rw [hbit]
    simp
    decide
  · have h0 : toBits x / 2 ^ n % 2 = 0 := by omega
    rw [h0]
    simp
    decide

/-- C10. For every `int` `x` and every bit index `n` below 32, the sign bit included,
`BITGET(BITSET(x, n), n) == 1` and `BITGET(BITCLR(x, n), n) == 0`. -/
theorem bit_set_clear_roundtrip (x : Int) (n : Nat) (hn : n < 32) :
    BITGET (BITSET x n) n = 1 ∧ BITGET (BITCLR x n) n = 0 := by
  constructor
  · rw [BITGET_eq _ n hn]
    unfold BITSET
    rw [testBit_bor, testBit_shl_one]
    simp [hn]
  · rw [BITGET_eq _ n hn]
    unfold BITCLR
    rw [testBit_band, testBit_bnot, testBit_shl_one]
    simp [hn]

/-- C10 at sample inputs: the sign bit of `0` is set and read back, and the sign bit of
`-1` is cleared and read back. -/
theorem bit_set_clear_roundtrip_witness :
    31 < 32 ∧ BITGET (BITSET 0 31) 31 = 1 ∧ BITGET (BITCLR (-1) 31) 31 = 0 :=
  ⟨by decide, (bit_set_clear_roundtrip 0 31 (by decide)).1,
    (bit_set_clear_roundtrip (-1) 31 (by decide)).2⟩


/-! ## Bytes of an unsigned value -/

theorem and_byte_mask (x s : Nat) : x &&& (255 <<< s) = ((x >>> s) % 256) <<< s := by
  have e : (256 : Nat) = 2 ^ 8 := by norm_num
  have e2 : (255 : Nat) = 2 ^ 8 - 1 := by norm_num
  rw [e, e2]
  apply Nat.eq_of_testBit_eq
  intro i
  simp only [Nat.testBit_and, Nat.testBit_shiftLeft, Nat.testBit_mod_two_pow,
    Nat.testBit_shiftRight, Nat.testBit_two_pow_sub_one]
  by_cases h : s ≤ i
  · have e3 : s + (i - s) = i := by omega
    simp only [ge_iff_le, h, decide_True, Bool.true_and, e3]
    exact Bool.and_comm _ _
  · simp [h]

theorem and_255 (x : Nat) : x &&& 255 = x % 256 := by
  have e2 : (255 : Nat) = 2 ^ 8 - 1 := by norm_num
  rw [e2, Nat.and_pow_two_sub_one_eq_mod]

theorem pack4 (t0 t1 t2 t3 : Nat) (h0 : t0 < 256) (h1 : t1 < 256) (h2 : t2 < 256) :
    16777216 * t3 ||| (65536 * t2 ||| (256 * t1 ||| t0))
      = 16777216 * t3 + 65536 * t2 + 256 * t1 + t0 := by
  have a1 : 2 ^ 8 * t1 + t0 = 2 ^ 8 * t1 ||| t0 :=
    Nat.mul_add_lt_is_or (by norm_num; exact h0) t1
  have a2 : 2 ^ 16 * t2 + (256 * t1 + t0) = 2 ^ 16 * t2 ||| (256 * t1 + t0) :=
    Nat.mul_add_lt_is_or (by norm_num; omega) t2
  have a3 : 2 ^ 24 * t3 + (65536 * t2 + (256 * t1 + t0))
      = 2 ^ 24 * t3 ||| (65536 * t2 + (256 * t1 + t0)) :=
    Nat.mul_add_lt_is_or (by norm_num; omega) t3
  norm_num at a1 a2 a3
  rw [← a1, ← a2, ← a3]
  omega

theorem byteOf_eq (x k : Nat) : byteOf x k = x / 2 ^ (8 * k) % 256 := by
  unfold byteOf
  rw [Nat.shiftRight_eq_div_pow]
  exact and_255 _

theorem byteOf_zero (x : Nat) : byteOf x 0 = x % 256 := by
  rw [byteOf_eq]
  norm_num

theorem byteOf_one (x : Nat) : byteOf x 1 = x / 256 % 256 := by
  rw [byteOf_eq]
  norm_num

theorem byteOf_two (x : Nat) : byteOf x 2 = x / 65536 % 256 := by
  rw [byteOf_eq]
  norm_num

theorem byteOf_three (x : Nat) : byteOf x 3 = x / 16777216 % 256 := by
  rw [byteOf_eq]
  norm_num

theorem toBits_natCast (c : Nat) (h : c < 4294967296) : toBits (c : Int) = c := by
  unfold toBits
  omega

theorem FCC_eq (c0 c1 c2 c3 : Nat) (h0 : c0 ≤ 255) (h1 : c1 ≤ 255) (h2 : c2 ≤ 255)
    (h3 : c3 ≤ 255) :
    FCC c0 c1 c2 c3 = 16777216 * c3 + 65536 * c2 + 256 * c1 + c0 := by
  unfold FCC shlU32 uint32_t
  rw [toBits_natCast c0 (by omega), toBits_natCast c1 (by omega),
    toBits_natCast c2 (by omega), toBits_natCast c3 (by omega)]
  simp only [Nat.shiftLeft_eq]
  norm_num
  have e0 : c0 % 4294967296 = c0 := Nat.mod_eq_of_lt (by omega)
  have e1 : c1 * 256 % 4294967296 = 256 * c1 := by omega
  have e2 : c2 * 65536 % 4294967296 = 65536 * c2 := by omega
  have e3 : c3 * 16777216 % 4294967296 = 16777216 * c3 := by omega
  rw [e0, e1, e2, e3, Nat.or_assoc, Nat.or_assoc]
  exact pack4 c0 c1 c2 c3 (by omega) (by omega) (by omega)

/-! ## macros.h: four-character codes -/

/-- C11. For byte-sized inputs `c0..c3` (each in `0..255`), byte `k` of
`FCC(c0, c1, c2, c3)`, that is `(FCC(...) >> (8*k)) & 0xFF`, equals `ck` for `k = 0..3`;
the result fits in 32 bits and `FCC` is injective on byte-sized inputs. -/
theorem fcc_bytes (c0 c1 c2 c3 : Nat) (h0 : c0 ≤ 255) (h1 : c1 ≤ 255) (h2 : c2 ≤ 255)
    (h3 : c3 ≤ 255) :
    byteOf (FCC c0 c1 c2 c3) 0 = c0 ∧ byteOf (FCC c0 c1 c2 c3) 1 = c1
    ∧ byteOf (FCC c0 c1 c2 c3) 2 = c2 ∧ byteOf (FCC c0 c1 c2 c3) 3 = c3
    ∧ FCC c0 c1 c2 c3 < 4294967296
    ∧ ∀ d0 d1 d2 d3 : Nat, d0 ≤ 255 → d1 ≤ 255 → d2 ≤ 255 → d3 ≤ 255 →
        FCC c0 c1 c2 c3 = FCC d0 d1 d2 d3 → c0 = d0 ∧ c1 = d1 ∧ c2 = d2 ∧ c3 = d3 := by
  rw [FCC_eq c0 c1 c2 c3 h0 h1 h2 h3]
  simp only [byteOf_eq]
  norm_num
  refine ⟨by omega, by omega, by omega, by omega, by omega, ?_⟩
  intro d0 d1 d2 d3 g0 g1 g2 g3
  rw [FCC_eq d0 d1 d2 d3 g0 g1 g2 g3]
  intro h
  omega

/-- C11 at a sample input: the code of the characters `R`, `I`, `F`, `F`. -/
theorem fcc_bytes_witness :
    (82 : Nat) ≤ 255 ∧ (73 : Nat) ≤ 255 ∧ (70 : Nat) ≤ 255
    ∧ byteOf (FCC (82 : Nat) (73 : Nat) (70 : Nat) (70 : Nat)) 0 = 82
    ∧ byteOf (FCC (82 : Nat) (73 : Nat) (70 : Nat) (70 : Nat)) 3 = 70 :=
  have h := fcc_bytes 82 73 70 70 (by decide) (by decide) (by decide) (by decide)
  ⟨by decide, by decide, by decide, h.1, h.2.2.2.1⟩


/-! ## uctypes.h: byte order -/

theorem swap16_val (X : Nat) (hX : X < 65536) :
    ((X &&& 0xFF00) >>> 8) ||| ((X &&& 0x00FF) <<< 8) = 256 * (X % 256) + X / 256 := by
  have m1 : (0xFF00 : Nat) = 255 <<< 8 := by decide
  have eA : ((X >>> 8) % 256) <<< 8 >>> 8 = X / 256 := by
    simp only [Nat.shiftLeft_eq, Nat.shiftRight_eq_div_pow]
    omega
  have eB : (X % 256) <<< 8 = 2 ^ 8 * (X % 256) := by
    simp only [Nat.shiftLeft_eq]
    omega
  have hlt : X / 256 < 2 ^ 8 := by omega
  rw [m1, and_byte_mask, and_255, eA, eB, Nat.or_comm, ← Nat.mul_add_lt_is_or hlt]

theorem swap32_val (X : Nat) :
    ((X &&& 0xFF000000) >>> 24) ||| ((X &&& 0x00FF0000) >>> 8)
      ||| shlU32 (X &&& 0x0000FF00) 8 ||| shlU32 (X &&& 0x000000FF) 24
    = 16777216 * (X % 256) + 65536 * (X / 256 % 256) + 256 * (X / 65536 % 256)
      + X / 16777216 % 256 := by
  have m3 : (0xFF000000 : Nat) = 255 <<< 24 := by decide
  have m2 : (0x00FF0000 : Nat) = 255 <<< 16 := by decide
  have m1 : (0x0000FF00 : Nat) = 255 <<< 8 := by decide
  have eA : ((X >>> 24) % 256) <<< 24 >>> 24 = X / 16777216 % 256 := by
    simp only [Nat.shiftLeft_eq, Nat.shiftRight_eq_div_pow]
    omega
  have eB : ((X >>> 16) % 256) <<< 16 >>> 8 = 256 * (X / 65536 % 256) := by
    simp only [Nat.shiftLeft_eq, Nat.shiftRight_eq_div_pow]
    omega
  have eC : ((((X >>> 8) % 256) <<< 8) <<< 8) % 4294967296 = 65536 * (X / 256 % 256) := by
    simp only [Nat.shiftLeft_eq, Nat.shiftRight_eq_div_pow]
    omega
  have eD : ((X % 256) <<< 24) % 4294967296 = 16777216 * (X % 256) := by
    simp only [Nat.shiftLeft_eq]
    omega
  unfold shlU32
  rw [m3, m2, m1, and_byte_mask, and_byte_mask, and_byte_mask, and_255, eA, eB, eC, eD]
  have hac : ∀ A B C D : Nat, ((A ||| B) ||| C) ||| D = D ||| (C ||| (B ||| A)) := by
    intro A B C D
    ac_rfl
  rw [hac]
  exact pack4 _ _ _ _ (Nat.mod_lt _ (by norm_num)) (Nat.mod_lt _ (by norm_num))
    (Nat.mod_lt _ (by norm_num))

theorem htons_little (x : Nat) :
    htons ⟨false, true⟩ x = some (256 * (x % 65536 % 256) + x % 65536 / 256) := by
  unfold htons Uint16
  simp only [Bool.false_and, Bool.false_eq_true, if_false, Bool.not_false, Bool.and_self,
    if_true]
  rw [swap16_val _ (Nat.mod_lt _ (by norm_num))]

theorem htonl_little (x : Nat) :
    htonl ⟨false, true⟩ x = some (16777216 * (x % 4294967296 % 256)
      + 65536 * (x % 4294967296 / 256 % 256) + 256 * (x % 4294967296 / 65536 % 256)
      + x % 4294967296 / 16777216 % 256) := by
  unfold htonl Uint32
  simp only [Bool.false_and, Bool.false_eq_true, if_false, Bool.not_false, Bool.and_self,
    if_true]
  rw [swap32_val]

theorem ntohs_little (x : Nat) : ntohs ⟨false, true⟩ x = htons ⟨false, true⟩ x := by
  unfold ntohs
  simp

theorem ntohl_little (x : Nat) : ntohl ⟨false, true⟩ x = htonl ⟨false, true⟩ x := by
  unfold ntohl
  simp

theorem endian_big (x : Nat) :
    htons ⟨true, false⟩ x = some x ∧ htonl ⟨true, false⟩ x = some x
    ∧ ntohs ⟨true, false⟩ x = some x ∧ ntohl ⟨true, false⟩ x = some x := by
  unfold htons htonl ntohs ntohl
  simp

theorem bytes_decomp (x : Nat) (hx : x < 4294967296) :
    16777216 * (x / 16777216 % 256) + 65536 * (x / 65536 % 256) + 256 * (x / 256 % 256)
      + x % 256 = x := by
  omega

theorem bytes_of_pack (b0 b1 b2 b3 : Nat) (h0 : b0 < 256) (h1 : b1 < 256) (h2 : b2 < 256)
    (h3 : b3 < 256) :
    (16777216 * b3 + 65536 * b2 + 256 * b1 + b0) % 256 = b0
    ∧ (16777216 * b3 + 65536 * b2 + 256 * b1 + b0) / 256 % 256 = b1
    ∧ (16777216 * b3 + 65536 * b2 + 256 * b1 + b0) / 65536 % 256 = b2
    ∧ (16777216 * b3 + 65536 * b2 + 256 * b1 + b0) / 16777216 % 256 = b3
    ∧ 16777216 * b3 + 65536 * b2 + 256 * b1 + b0 < 4294967296 := by
  refine ⟨by omega, by omega, by omega, by omega, by omega⟩

theorem bytes2_of_pack (b0 b1 : Nat) (h0 : b0 < 256) (h1 : b1 < 256) :
    (256 * b1 + b0) % 256 = b0 ∧ (256 * b1 + b0) / 256 = b1
    ∧ (256 * b1 + b0) / 256 % 256 = b1 ∧ 256 * b1 + b0 < 65536 := by
  refine ⟨by omega, by omega, by omega, by omega⟩

theorem swap16_twice (x : Nat) (hx : x < 65536) :
    htons ⟨false, true⟩ x = some (256 * (x % 256) + x / 256)
    ∧ 256 * (x % 256) + x / 256 < 65536
    ∧ (htons ⟨false, true⟩ x).bind (htons ⟨false, true⟩) = some x := by
  have hX : x % 65536 = x := Nat.mod_eq_of_lt hx
  have h1 : htons ⟨false, true⟩ x = some (256 * (x % 256) + x / 256) := by
    rw [htons_little, hX]
  obtain ⟨p0, p1, _, p3⟩ := bytes2_of_pack (x / 256) (x % 256) (by omega) (by omega)
  refine ⟨h1, p3, ?_⟩
  rw [h1, Option.some_bind, htons_little, Nat.mod_eq_of_lt p3, p0, p1]
  congr 1
  omega

theorem swap32_twice (x : Nat) (hx : x < 4294967296) :
    htonl ⟨false, true⟩ x = some (16777216 * (x % 256) + 65536 * (x / 256 % 256)
      + 256 * (x / 65536 % 256) + x / 16777216 % 256)
    ∧ 16777216 * (x % 256) + 65536 * (x / 256 % 256) + 256 * (x / 65536 % 256)
      + x / 16777216 % 256 < 4294967296
    ∧ (htonl ⟨false, true⟩ x).bind (htonl ⟨false, true⟩) = some x := by
  have hX : x % 4294967296 = x := Nat.mod_eq_of_lt hx
  have h1 : htonl ⟨false, true⟩ x = some (16777216 * (x % 256) + 65536 * (x / 256 % 256)
      + 256 * (x / 65536 % 256) + x / 16777216 % 256) := by
    rw [htonl_little, hX]
  obtain ⟨p0, p1, p2, p3, p4⟩ := bytes_of_pack (x / 16777216 % 256) (x / 65536 % 256)
    (x / 256 % 256) (x % 256) (Nat.mod_lt _ (by norm_num)) (Nat.mod_lt _ (by norm_num))
    (Nat.mod_lt _ (by norm_num)) (Nat.mod_lt _ (by norm_num))
  refine ⟨h1, p4, ?_⟩
  rw [h1, Option.some_bind, htonl_little, Nat.mod_eq_of_lt p4, p0, p1, p2, p3]
  congr 1
  exact bytes_decomp x hx

/-- C12. In both endianness configurations (exactly one of `BIG_ENDIAN`, `LITTLE_ENDIAN`
defined) the conversions are involutive: `htons(ntohs(x)) == x` and `ntohs(htons(x)) == x`
for every 16-bit `x`, `htonl(ntohl(x)) == x` and `ntohl(htonl(x)) == x` for every 32-bit
`x`. -/
theorem endian_involutive (e : Endian) (he : e.BIG_ENDIAN ≠ e.LITTLE_ENDIAN) :
    (∀ x : Nat, x < 65536 →
      (ntohs e x).bind (htons e) = some x ∧ (htons e x).bind (ntohs e) = some x)
    ∧ (∀ x : Nat, x < 4294967296 →
      (ntohl e x).bind (htonl e) = some x ∧ (htonl e x).bind (ntohl e) = some x) := by
  obtain ⟨big, little⟩ := e
  cases big <;> cases little
  · exact absurd rfl he
  · have e1 : ntohs ⟨false, true⟩ = htons ⟨false, true⟩ := funext ntohs_little
    have e2 : ntohl ⟨false, true⟩ = htonl ⟨false, true⟩ := funext ntohl_little
    rw [e1, e2]
    exact ⟨fun x hx => ⟨(swap16_twice x hx).2.2, (swap16_twice x hx).2.2⟩,
      fun x hx => ⟨(swap32_twice x hx).2.2, (swap32_twice x hx).2.2⟩⟩
  · constructor
    · intro x _
      simp [(endian_big x).1, (endian_big x).2.2.1]
    · intro x _
      simp [(endian_big x).2.1, (endian_big x).2.2.2]
  · exact absurd rfl he

/-- C12 at sample inputs: `0x1234` and `0x12345678` on a little-endian host. -/
theorem endian_involutive_witness :
    littleEndian.BIG_ENDIAN ≠ littleEndian.LITTLE_ENDIAN
    ∧ (ntohs littleEndian 0x1234).bind (htons littleEndian) = some 0x1234
    ∧ (htonl littleEndian 0x12345678).bind (ntohl littleEndian) = some 0x12345678 :=
  have h := endian_involutive littleEndian (by decide)
  ⟨by decide, (h.1 0x1234 (by decide)).1, (h.2 0x12345678 (by decide)).2⟩

/-- C18. With only `LITTLE_ENDIAN` defined, `htonl` reverses the four bytes of a 32-bit `x`
(byte `k` of the result is byte `3-k` of `x`) and `htons` swaps the two bytes of a 16-bit
`x`; the results stay within 32 and 16 bits; `ntohs`, `ntohl` are the same functions as
`htons`, `htonl`.  With only `BIG_ENDIAN` defined all four conversions are the identity. -/
theorem little_endian_reverses_bytes (x s : Nat) (hx : x < 4294967296) (hs : s < 65536) :
    (∃ y, htonl littleEndian x = some y ∧ y < 4294967296
      ∧ byteOf y 0 = byteOf x 3 ∧ byteOf y 1 = byteOf x 2
      ∧ byteOf y 2 = byteOf x 1 ∧ byteOf y 3 = byteOf x 0)
    ∧ (∃ z, htons littleEndian s = some z ∧ z < 65536
      ∧ byteOf z 0 = byteOf s 1 ∧ byteOf z 1 = byteOf s 0)
    ∧ ntohs littleEndian = htons littleEndian ∧ ntohl littleEndian = htonl littleEndian
    ∧ htons bigEndian s = some s ∧ ntohs bigEndian s = some s
    ∧ htonl bigEndian x = some x ∧ ntohl bigEndian x = some x := by
  obtain ⟨p0, p1, p2, p3, p4⟩ := bytes_of_pack (x / 16777216 % 256) (x / 65536 % 256)
    (x / 256 % 256) (x % 256) (Nat.mod_lt _ (by norm_num)) (Nat.mod_lt _ (by norm_num))
    (Nat.mod_lt _ (by norm_num)) (Nat.mod_lt _ (by norm_num))
  obtain ⟨q0, _, q2, q3⟩ := bytes2_of_pack (s / 256) (s % 256) (by omega) (by omega)
  have hb3 : x / 16777216 % 256 = x / 16777216 := by omega
  have hs1 : s / 256 % 256 = s / 256 := by omega
  refine ⟨⟨_, (swap32_twice x hx).1, p4, ?_⟩, ⟨_, (swap16_twice s hs).1, q3, ?_⟩,
    funext ntohs_little, funext ntohl_little, (endian_big s).1, (endian_big s).2.2.1,
    (endian_big x).2.1, (endian_big x).2.2.2⟩
  · simp only [byteOf_zero, byteOf_one, byteOf_two, byteOf_three]
    exact ⟨p0, p1, p2, p3⟩
  · simp only [byteOf_zero, byteOf_one]
    exact ⟨by rw [q0, hs1], q2⟩

/-- C18 at sample inputs: `0x12345678` becomes `0x78563412` and `0x1234` becomes `0x3412`. -/
theorem little_endian_reverses_bytes_witness :
    (0x12345678 : Nat) < 4294967296 ∧ (0x1234 : Nat) < 65536
    ∧ (∃ y, htonl littleEndian 0x12345678 = some y ∧ y < 4294967296
      ∧ byteOf y 0 = byteOf 0x12345678 3 ∧ byteOf y 1 = byteOf 0x12345678 2
      ∧ byteOf y 2 = byteOf 0x12345678 1 ∧ byteOf y 3 = byteOf 0x12345678 0)
    ∧ htonl littleEndian 0x12345678 = some 0x78563412
    ∧ htons littleEndian 0x1234 = some 0x3412 :=
  ⟨by decide, by decide,
    (little_endian_reverses_bytes 0x12345678 0x1234 (by decide) (by decide)).1,
    by decide, by decide⟩


/-! ## macros.h: array dimension -/

/-- C14. For a true array of `n` elements of size `s > 0`, whose total size is `n * s`,
`NUM_ARRAY_ELEM` is `(n * s) / s`, which is `n`; this holds for every `n`, in particular
for `n >= 1`. -/
theorem num_array_elem_of_array (n s : Nat) (hs : 0 < s) :
    NUM_ARRAY_ELEM (arrayOf n s) = n * s / s ∧ NUM_ARRAY_ELEM (arrayOf n s) = n := by
  unfold NUM_ARRAY_ELEM arrayOf
  exact ⟨rfl, Nat.mul_div_cancel n hs⟩

/-- C14 at a sample input: ten 4-byte elements. -/
theorem num_array_elem_of_array_witness :
    0 < 4 ∧ NUM_ARRAY_ELEM (arrayOf 10 4) = 10 :=
  ⟨by decide, (num_array_elem_of_array 10 4 (by decide)).2⟩

/-- C15, as stated, fails: for a `char*` on a 64-bit target (`p = 8`, `s = 1`) the macro
yields `8`, and for a `double*` on a 32-bit target (`p = 4`, `s = 8`) it yields `0`. -/
theorem pointer_operand_not_one :
    NUM_ARRAY_ELEM (pointerTo 8 1) = 8 ∧ NUM_ARRAY_ELEM (pointerTo 4 8) = 0
    ∧ NUM_ARRAY_ELEM (pointerTo 8 1) ≠ 1 ∧ NUM_ARRAY_ELEM (pointerTo 4 8) ≠ 1 := by
  decide

/-- C15, amended. Given a decayed pointer, `NUM_ARRAY_ELEM` yields
`sizeof(pointer) / sizeof(element) = p / s`, whatever the number of elements; for `s > 0`
this is `1` exactly when `s <= p < 2 * s`. -/
theorem num_array_elem_of_pointer (p s : Nat) (hs : 0 < s) :
    NUM_ARRAY_ELEM (pointerTo p s) = p / s
    ∧ (NUM_ARRAY_ELEM (pointerTo p s) = 1 ↔ (s ≤ p ∧ p < 2 * s)) := by
  unfold NUM_ARRAY_ELEM pointerTo
  refine ⟨rfl, ?_⟩
  show p / s = 1 ↔ _
  have h1 : 1 ≤ p / s ↔ 1 * s ≤ p := Nat.le_div_iff_mul_le hs
  have h2 : p / s < 2 ↔ p < 2 * s := Nat.div_lt_iff_lt_mul hs
  omega


/-- C15 amended, at sample inputs: an `int*` with 4-byte pointers gives `1`, and the
criterion `s <= p < 2 * s` holds there. -/
theorem num_array_elem_of_pointer_witness :
    0 < 4 ∧ NUM_ARRAY_ELEM (pointerTo 4 4) = 4 / 4
    ∧ (NUM_ARRAY_ELEM (pointerTo 4 4) = 1 ↔ (4 ≤ 4 ∧ 4 < 2 * 4)) :=
  ⟨by decide, num_array_elem_of_pointer 4 4 (by decide)⟩

/-! ## macros.h: minimum, maximum, absolute value -/

/-- C16, as stated, fails at the most negative `int`: with two's-complement wrap-around
`-INT_MIN` is `INT_MIN`, so `ABS(INT_MIN)` is `INT_MIN`, which is negative. -/
theorem abs_int_min_negative :
    isInt32 (-2147483648) ∧ ABS (-2147483648) = -2147483648 ∧ ¬ (0 ≤ ABS (-2147483648)) := by
  decide

/-- C16, amended. For every 32-bit signed `x` and every `y`, with negation wrapping around:
`ABS(x) >= 0` iff `x` is not `INT_MIN` (and `ABS(INT_MIN) == INT_MIN`); `ABS(x)` is `x` or
`-x`; `ABS(-x) == ABS(x)`; `MIN(x, y)` is at most `x` and `y`, `MAX(x, y)` is at least `x`
and `y`, each is one of its arguments, and `MIN(x, y) + MAX(x, y) == x + y`. -/
theorem abs_min_max (x y : Int) (hx : isInt32 x) :
    (0 ≤ ABS x ↔ x ≠ -2147483648)
    ∧ (ABS x = x ∨ ABS x = neg x)
    ∧ ABS (neg x) = ABS x
    ∧ MIN x y ≤ x ∧ MIN x y ≤ y ∧ x ≤ MAX x y ∧ y ≤ MAX x y
    ∧ (MIN x y = x ∨ MIN x y = y) ∧ (MAX x y = x ∨ MAX x y = y)
    ∧ MIN x y + MAX x y = x + y
    ∧ add (MIN x y) (MAX x y) = add x y := by
  have hneg : ∀ z : Int, isInt32 z →
      neg z = if z = -2147483648 then -2147483648 else -z := by
    intro z hz
    unfold isInt32 at hz
    unfold neg wrap toBits ofBits
    split_ifs <;> omega
  have hsum : MIN x y + MAX x y = x + y := by
    unfold MIN MAX
    split_ifs <;> omega
  unfold isInt32 at hx
  refine ⟨?_, ?_, ?_, ?_, ?_, ?_, ?_, ?_, ?_, hsum, ?_⟩
  · unfold ABS
    rw [hneg x ⟨hx.1, hx.2⟩]
    split_ifs <;> omega
  · unfold ABS
    split_ifs
    · exact Or.inr rfl
    · exact Or.inl rfl
  · have hn := hneg x ⟨hx.1, hx.2⟩
    have hnr : isInt32 (neg x) := ofBits_isInt32 _
    have hnn := hneg (neg x) hnr
    unfold ABS
    rw [hnn, hn]
    split_ifs <;> omega
  · unfold MIN
    split_ifs <;> omega
  · unfold MIN
    split_ifs <;> omega
  · unfold MAX
    split_ifs <;> omega
  · unfold MAX
    split_ifs <;> omega
  · unfold MIN
    split_ifs
    · exact Or.inl rfl
    · exact Or.inr rfl
  · unfold MAX
    split_ifs
    · exact Or.inl rfl
    · exact Or.inr rfl
  · unfold add
    rw [hsum]

/-- C16 amended, at sample inputs: `x = -7`, `y = 3`. -/
theorem abs_min_max_witness :
    isInt32 (-7) ∧ 0 ≤ ABS (-7) ∧ ABS (neg (-7)) = ABS (-7)
    ∧ MIN (-7) 3 + MAX (-7) 3 = -7 + 3 :=
  have h := abs_min_max (-7) 3 (by decide)
  ⟨by decide, h.1.mpr (by decide), h.2.2.1, h.2.2.2.2.2.2.2.2.2.1⟩

/-- C17. `UCLIP(v, hi) == MIN(v, hi)` and `LCLIP(v, lo) == MAX(v, lo)` for all operands,
and for `lo <= hi`, `CLIP(v, lo, hi) == UCLIP(LCLIP(v, lo), hi) == LCLIP(UCLIP(v, hi), lo)`. -/
theorem one_sided_clips (v lo hi : Int) :
    UCLIP v hi = MIN v hi ∧ LCLIP v lo = MAX v lo
    ∧ (lo ≤ hi → CLIP v lo hi = UCLIP (LCLIP v lo) hi
        ∧ UCLIP (LCLIP v lo) hi = LCLIP (UCLIP v hi) lo) := by
  unfold UCLIP LCLIP MIN MAX CLIP
  refine ⟨?_, ?_, ?_⟩
  · split_ifs <;> omega
  · split_ifs <;> omega
  · intro h
    constructor <;> split_ifs <;> omega

/-- C17 at a sample input: `v = 300`, `lo = 0`, `hi = 255`. -/
theorem one_sided_clips_witness :
    (0 : Int) ≤ 255 ∧ CLIP 300 0 255 = UCLIP (LCLIP 300 0) 255
    ∧ UCLIP (LCLIP 300 0) 255 = LCLIP (UCLIP 300 255) 0 :=
  ⟨by decide, (one_sided_clips 300 0 255).2.2 (by decide)⟩


/-! ## macros.h: shifts -/

theorem shl_of_nonneg (v : Int) (n : Nat) (hv : 0 ≤ v) (h : v * 2 ^ n < 2147483648) :
    shl v n = v * 2 ^ n := by
  have hp : (1 : Int) ≤ 2 ^ n := by
    have : (0 : Int) < 2 ^ n := by positivity
    omega
  have hle : v ≤ v * 2 ^ n := le_mul_of_one_le_right hv hp
  have hc : ((v.toNat * 2 ^ n : Nat) : Int) = v * 2 ^ n := by
    push_cast
    rw [Int.toNat_of_nonneg hv]
  have hlt : v.toNat * 2 ^ n < 2147483648 := by
    have : ((v.toNat * 2 ^ n : Nat) : Int) < 2147483648 := by rw [hc]; exact h
    exact_mod_cast this
  unfold shl
  rw [toBits_of_nonneg v hv (by omega), Nat.shiftLeft_eq, ofBits_of_lt _ hlt, hc]

theorem shr_mul_two_pow (v : Int) (n : Nat) : shr (v * 2 ^ n) n = v := by
  have hp : (0 : Int) < 2 ^ n := by positivity
  unfold shr
  rw [Int.shiftRight_eq_div_pow]
  push_cast
  exact Int.mul_ediv_cancel v (ne_of_gt hp)

theorem neg_small (s : Int) (h1 : -32 < s) (h2 : s < 32) : neg s = -s := by
  unfold neg
  exact wrap_of_isInt32 _ ⟨by omega, by omega⟩

/-- C19. For every value `v` and shift `s` with `|s|` below the bit width, `BITSHIFT(v, s)`
is `v >> s` when `s > 0`, `v << (-s)` when `s < 0`, and `v` when `s == 0`; hence for a
non-negative `v` whose left shift by `s >= 0` does not overflow,
`BITSHIFT(BITSHIFT(v, -s), s) == v`. -/
theorem bitshift_directions (v s : Int) (h1 : -32 < s) (h2 : s < 32) :
    (0 < s → BITSHIFT v s = shr v s.toNat)
    ∧ (s < 0 → BITSHIFT v s = shl v (-s).toNat)
    ∧ BITSHIFT v 0 = v
    ∧ (0 ≤ v → 0 ≤ s → v * 2 ^ s.toNat < 2147483648 →
        BITSHIFT (BITSHIFT v (neg s)) s = v) := by
  have hzero : ∀ u : Int, BITSHIFT u 0 = u := by
    intro u
    unfold BITSHIFT shr
    simp only [ge_iff_le, le_refl, if_true, Int.toNat_zero]
    rw [Int.shiftRight_eq_div_pow]
    simp
  refine ⟨?_, ?_, hzero v, ?_⟩
  · intro h
    unfold BITSHIFT
    rw [if_pos (by omega)]
  · intro h
    unfold BITSHIFT
    rw [if_neg (by omega), neg_small s h1 h2]
  · intro hv hs hno
    rw [neg_small s h1 h2]
    by_cases h0 : s = 0
    · subst h0
      rw [neg_zero, hzero, hzero]
    · have hneg : ¬ (-s ≥ 0) := by omega
      have hinner : BITSHIFT v (-s) = v * 2 ^ s.toNat := by
        unfold BITSHIFT
        rw [if_neg hneg, neg_small (-s) (by omega) (by omega), neg_neg]
        exact shl_of_nonneg v _ hv hno
      rw [hinner]
      unfold BITSHIFT
      rw [if_pos (by omega)]
      exact shr_mul_two_pow v _

/-- C19 at a sample input: `5` shifted left by 3 and back. -/
theorem bitshift_directions_witness :
    (-32 : Int) < 3 ∧ (3 : Int) < 32 ∧ BITSHIFT 5 (-3) = 40 ∧ BITSHIFT 40 3 = 5
    ∧ BITSHIFT (BITSHIFT 5 (neg 3)) 3 = 5 :=
  ⟨by decide, by decide, by decide, by decide,
    (bitshift_directions 5 3 (by decide) (by decide)).2.2.2 (by decide) (by decide)
      (by decide)⟩


/-! ## debug.h: scoped against unscoped -/

theorem band_scope_all_ne_zero (m : Int) (h : hasLowScopeBit m) : band m 65535 ≠ 0 := by
  obtain ⟨i, hi, hbit⟩ := h
  intro h0
  have h1 := testBit_band m 65535 i
  have h2 : toBits 65535 = 2 ^ 16 - 1 := by decide
  have h3 : toBits 0 = 0 := by decide
  rw [h0, h3, h2, hbit, Nat.testBit_two_pow_sub_one] at h1
  simp [hi] at h1

/-- For a scope argument that is a single operand with one of bits `0..15` set and the mask
`PRINT_SCOPE_ALL`, each level-qualified scoped macro emits exactly when its unscoped
counterpart does and `SPRINT` emits; with the mask `PRINT_SCOPE_NONE` none of them emits. -/
theorem scoped_agrees_single_operand {σ : Type} (b : Build) (hd : b.DEBUG_PRINT = true)
    (hr : b.RUNTIME_PRINT_LEVEL = true) (e : Arg σ) (fmt : String) (args : List (Arg σ))
    (w : World σ) :
    ((w.g_currentPrintScope.val : Int) = PRINT_SCOPE_ALL → hasLowScopeBit (e w.mem).1 →
      (semits w (SPRINTW b (singleScope e) fmt args w) ↔ emits w (PRINTW b fmt args w))
      ∧ (semits w (SPRINTI b (singleScope e) fmt args w) ↔ emits w (PRINTI b fmt args w))
      ∧ (semits w (SPRINTD b (singleScope e) fmt args w) ↔ emits w (PRINTD b fmt args w))
      ∧ (semits w (SPRINTV b (singleScope e) fmt args w) ↔ emits w (PRINTV b fmt args w))
      ∧ semits w (SPRINT b (singleScope e) fmt args w))
    ∧ ((w.g_currentPrintScope.val : Int) = PRINT_SCOPE_NONE →
      ¬ semits w (SPRINT b (singleScope e) fmt args w)
      ∧ ¬ semits w (SPRINTW b (singleScope e) fmt args w)
      ∧ ¬ semits w (SPRINTI b (singleScope e) fmt args w)
      ∧ ¬ semits w (SPRINTD b (singleScope e) fmt args w)
      ∧ ¬ semits w (SPRINTV b (singleScope e) fmt args w)) := by
  obtain ⟨_, uW, uI, uD, uV⟩ := runtime_unscoped_gate b hd hr fmt args w
  obtain ⟨s0, sW, sI, sD, sV⟩ := scoped_gate_single_operand b hd hr e fmt args w
  constructor
  · intro hall hbit
    have hne : band (w.g_currentPrintScope.val : Int) (e w.mem).1 ≠ 0 := by
      rw [hall, band_comm]
      exact band_scope_all_ne_zero _ hbit
    refine ⟨?_, ?_, ?_, ?_, s0.mpr hne⟩
    · rw [sW, uW]
      exact ⟨fun h => h.2, fun h => ⟨hne, h⟩⟩
    · rw [sI, uI]
      exact ⟨fun h => h.2, fun h => ⟨hne, h⟩⟩
    · rw [sD, uD]
      exact ⟨fun h => h.2, fun h => ⟨hne, h⟩⟩
    · rw [sV, uV]
      exact ⟨fun h => h.2, fun h => ⟨hne, h⟩⟩
  · intro hnone
    have hz : band (w.g_currentPrintScope.val : Int) (e w.mem).1 = 0 := by
      rw [hnone]
      exact band_zero_left _
    refine ⟨?_, ?_, ?_, ?_, ?_⟩
    · rw [s0]
      exact fun h => h hz
    · rw [sW]
      exact fun h => h.1 hz
    · rw [sI]
      exact fun h => h.1 hz
    · rw [sD]
      exact fun h => h.1 hz
    · rw [sV]
      exact fun h => h.1 hz

/-- C20, evaluated at the failing input. With mask `PRINT_SCOPE_NONE` and level `ALL`, the
calls with scope argument `PRINT_SCOPE_AREA00 | PRINT_SCOPE_AREA02` test `(0 & 1) | 4` and
`1 | (4 & 0)`, both non-zero: all five scoped macros emit. -/
theorem scoped_macros_emit_with_scope_none :
    (((worldAt 0 0).g_currentPrintScope.val : Nat) : Int) = PRINT_SCOPE_NONE
    ∧ sprintTest scopeArea00or02 (worldAt 0 0) = 4
    ∧ sprintLevelTest scopeArea00or02 (worldAt 0 0) = 1
    ∧ semits (worldAt 0 0) (SPRINT runtimeBuild scopeArea00or02 "s" [] (worldAt 0 0))
    ∧ semits (worldAt 0 0) (SPRINTW runtimeBuild scopeArea00or02 "s" [] (worldAt 0 0))
    ∧ semits (worldAt 0 0) (SPRINTI runtimeBuild scopeArea00or02 "s" [] (worldAt 0 0))
    ∧ semits (worldAt 0 0) (SPRINTD runtimeBuild scopeArea00or02 "s" [] (worldAt 0 0))
    ∧ semits (worldAt 0 0) (SPRINTV runtimeBuild scopeArea00or02 "s" [] (worldAt 0 0)) := by
  obtain ⟨s0, sW, sI, sD, sV⟩ :=
    runtime_scoped_gate runtimeBuild rfl rfl scopeArea00or02 "s" [] (worldAt 0 0)
  exact ⟨by decide, by decide, by decide, s0.mpr (by decide), sW.mpr (by decide),
    sI.mpr (by decide), sD.mpr (by decide), sV.mpr (by decide)⟩

/-! ## uctypes.h: rounding a byte count -/

theorem and_high_mask_gen (W x k : Nat) (hx : x < 2 ^ W) (hk : k ≤ W) :
    x &&& (2 ^ W - 2 ^ k) = x - x % 2 ^ k := by
  have h1 : 2 ^ W - 2 ^ k = (2 ^ (W - k) - 1) <<< k := by
    rw [Nat.shiftLeft_eq, Nat.sub_mul, one_mul, ← pow_add, Nat.sub_add_cancel hk]
  have h2 : x - x % 2 ^ k = (x >>> k) <<< k := by
    rw [Nat.shiftLeft_eq, Nat.shiftRight_eq_div_pow]
    have := Nat.div_add_mod x (2 ^ k)
    rw [mul_comm] at this
    omega
  rw [h1, h2]
  apply Nat.eq_of_testBit_eq
  intro i
  simp only [Nat.testBit_and, Nat.testBit_shiftLeft, Nat.testBit_shiftRight,
    Nat.testBit_two_pow_sub_one]
  by_cases hik : k ≤ i
  · have e : k + (i - k) = i := by omega
    by_cases hi : i < W
    · have : i - k < W - k := by omega
      simp [hik, this, e]
    · have hxi : x.testBit i = false := by
        apply Nat.testBit_lt_two_pow
        exact lt_of_lt_of_le hx (Nat.pow_le_pow_right (by norm_num) (by omega))
      simp [hxi, e]
  · simp [hik]

theorem ceil_nat (n U : Nat) (hU : 0 < U) :
    (n + (U - 1)) / U * U = if n % U = 0 then n else n + U - n % U := by
  have hx := Nat.div_add_mod (n + (U - 1)) U
  have hm : n % U < U := Nat.mod_lt n hU
  have hU1 : (U - 1) % U = U - 1 := Nat.mod_eq_of_lt (by omega)
  have hxm : (n + (U - 1)) % U = if n % U = 0 then U - 1 else n % U - 1 := by
    rw [Nat.add_mod, hU1]
    split_ifs with h0
    · rw [h0, Nat.zero_add, hU1]
    · have e : n % U + (U - 1) = (n % U - 1) + U := by omega
      rw [e, Nat.add_mod_right, Nat.mod_eq_of_lt (by omega)]
  rw [mul_comm] at hx
  split_ifs with h0
  · rw [if_pos h0] at hxm
    omega
  · rw [if_neg h0] at hxm
    omega

theorem least_multiple_eq (r n U : Nat) (hU : 0 < U)
    (hr : IsLeastMultipleGE (r : Int) (n : Int) (U : Int)) :
    r = (n + (U - 1)) / U * U := by
  have hc := ceil_isLeast (n : Int) (U : Int) (by exact_mod_cast hU)
  have e : (((n + (U - 1)) / U * U : Nat) : Int) = ((n : Int) + ((U : Int) - 1)) / U * U := by
    push_cast [Nat.cast_sub (show 1 ≤ U from hU)]
    rfl
  rw [← e] at hc
  have h1 := hr.2.2 _ hc.1 hc.2.1
  have h2 := hc.2.2 _ hr.1 hr.2.1
  exact_mod_cast le_antisymm h1 h2

theorem multiple_add_le (r k W : Nat) (hk : k ≤ W) (hdvd : 2 ^ k ∣ r) (hlt : r < 2 ^ W) :
    r + 2 ^ k ≤ 2 ^ W := by
  obtain ⟨j, rfl⟩ := hdvd
  have hP : 2 ^ W = 2 ^ k * 2 ^ (W - k) := by
    rw [← pow_add, Nat.add_sub_cancel' hk]
  rw [hP] at hlt ⊢
  have hj : j < 2 ^ (W - k) := Nat.lt_of_mul_lt_mul_left hlt
  have := Nat.mul_le_mul_left (2 ^ k) (Nat.succ_le_of_lt hj)
  rw [Nat.mul_succ] at this
  exact this

theorem usub_one (t : Target) (U : Nat) (h1 : 0 < U) (h2 : U < 2 ^ t.size_t_bits)
    (hW : 32 ≤ t.size_t_bits) : usub t U 1 = U - 1 := by
  have hP : 4294967296 ≤ 2 ^ t.size_t_bits :=
    calc 4294967296 = 2 ^ 32 := by norm_num
      _ ≤ 2 ^ t.size_t_bits := Nat.pow_le_pow_right (by norm_num) hW
  unfold usub
  rw [Nat.mod_eq_of_lt h2, Nat.mod_eq_of_lt (by omega : 1 < 2 ^ t.size_t_bits)]
  have e : U + 2 ^ t.size_t_bits - 1 = (U - 1) + 2 ^ t.size_t_bits := by omega
  rw [e, Nat.add_mod_right, Nat.mod_eq_of_lt (by omega)]

/-- The common replacement text of the two rounding macros, at unit `2^k`, yields the least
multiple of the unit that is at least `n`, and so does the mask form on `size_t`. -/
theorem round_up_body (t : Target) (k n r : Nat) (hW : 32 ≤ t.size_t_bits)
    (hk : k < t.size_t_bits) (hr : IsLeastMultipleGE (r : Int) (n : Int) ((2 ^ k : Nat) : Int))
    (hfit : r < 4294967296) :
    Uint32 (if size_t t n &&& usub t (size_t t (2 ^ k)) 1 ≠ 0 then
        usub t (uadd t (size_t t n) (size_t t (2 ^ k)))
          (size_t t n &&& usub t (size_t t (2 ^ k)) 1)
      else size_t t n) = r
    ∧ ALIGNB_size_t t n (size_t t (2 ^ k)) = r
    ∧ (2 ^ k ∣ n → r = n) := by
  have hU : 0 < 2 ^ k := Nat.pos_pow_of_pos k (by norm_num)
  have hP : 4294967296 ≤ 2 ^ t.size_t_bits :=
    calc 4294967296 = 2 ^ 32 := by norm_num
      _ ≤ 2 ^ t.size_t_bits := Nat.pow_le_pow_right (by norm_num) hW
  have hUP : 2 ^ k < 2 ^ t.size_t_bits := Nat.pow_lt_pow_right (by norm_num) hk
  have hrc := least_multiple_eq r n (2 ^ k) hU hr
  have hc := ceil_nat n (2 ^ k) hU
  have hnr : n ≤ r := by exact_mod_cast hr.2.1
  have hdvd : 2 ^ k ∣ r := by exact_mod_cast hr.1
  have hadd := multiple_add_le r k t.size_t_bits (le_of_lt hk) hdvd (by omega)
  have hm : n % 2 ^ k < 2 ^ k := Nat.mod_lt n hU
  have hsn : size_t t n = n := Nat.mod_eq_of_lt (by omega)
  have hsU : size_t t (2 ^ k) = 2 ^ k := Nat.mod_eq_of_lt hUP
  have hmask : usub t (2 ^ k) 1 = 2 ^ k - 1 := usub_one t _ hU hUP hW
  have hand : n &&& (2 ^ k - 1) = n % 2 ^ k := Nat.and_pow_two_sub_one_eq_mod n k
  have hx := Nat.div_add_mod (n + (2 ^ k - 1)) (2 ^ k)
  rw [mul_comm] at hx
  refine ⟨?_, ?_, ?_⟩
  · rw [hsn, hsU, hmask, hand]
    unfold Uint32
    split_ifs with h0
    · rw [if_neg h0] at hc
      have hlt : n + 2 ^ k < 2 ^ t.size_t_bits := by omega
      unfold uadd usub
      rw [Nat.mod_eq_of_lt hlt, Nat.mod_eq_of_lt hlt,
        Nat.mod_eq_of_lt (by omega : n % 2 ^ k < 2 ^ t.size_t_bits)]
      have e : n + 2 ^ k + 2 ^ t.size_t_bits - n % 2 ^ k = r + 2 ^ t.size_t_bits := by omega
      rw [e, Nat.add_mod_right, Nat.mod_eq_of_lt (by omega : r < 2 ^ t.size_t_bits),
        Nat.mod_eq_of_lt hfit]
    · have h1 : n % 2 ^ k = 0 := by
        by_contra hne
        exact h0 hne
      rw [if_pos h1] at hc
      rw [Nat.mod_eq_of_lt (by omega)]
      omega
  · unfold ALIGNB_size_t
    rw [hsn, hsU, hmask]
    unfold uadd ucompl
    have hlt : n + (2 ^ k - 1) < 2 ^ t.size_t_bits := by omega
    rw [Nat.mod_eq_of_lt hlt, Nat.mod_eq_of_lt (by omega : 2 ^ k - 1 < 2 ^ t.size_t_bits)]
    have e : 2 ^ t.size_t_bits - 1 - (2 ^ k - 1) = 2 ^ t.size_t_bits - 2 ^ k := by omega
    rw [e, and_high_mask_gen _ _ k hlt (le_of_lt hk)]
    omega
  · intro hd
    have h1 : n % 2 ^ k = 0 := Nat.mod_eq_zero_of_dvd hd
    rw [if_pos h1] at hc
    omega

/-- C13. For a unit `U = 2^k` (`NATIVE_ALIGNMENT = sizeof(void*)` for
`ROUND_UP_NATIVE_ALIGNMENT`, `MAX_DATATYPE_SIZE = sizeof(union MaxDataTypeSize)` for
`ROUND_UP_DATATYPE_SIZE`) and a byte count `n` whose rounded value `r`, the least multiple
of `U` that is at least `n`, fits in 32 bits: each macro yields `r`; it yields `n` when `n`
is already a multiple of `U`; and it equals `ALIGNB(n, U)`, both on `size_t` operands and,
where `n + U - 1` fits an `int`, on `int` operands. -/
theorem round_up_least_multiple (t : Target) (k n r : Nat) (hW : 32 ≤ t.size_t_bits)
    (hk : k < t.size_t_bits) (hr : IsLeastMultipleGE (r : Int) (n : Int) ((2 ^ k : Nat) : Int))
    (hfit : r < 4294967296) :
    (t.sizeof_void_ptr = 2 ^ k →
      ROUND_UP_NATIVE_ALIGNMENT t n = r
      ∧ (2 ^ k ∣ n → ROUND_UP_NATIVE_ALIGNMENT t n = n)
      ∧ ROUND_UP_NATIVE_ALIGNMENT t n = ALIGNB_size_t t n (NATIVE_ALIGNMENT t))
    ∧ (t.sizeof_MaxDataTypeSize = 2 ^ k →
      ROUND_UP_DATATYPE_SIZE t n = r
      ∧ (2 ^ k ∣ n → ROUND_UP_DATATYPE_SIZE t n = n)
      ∧ ROUND_UP_DATATYPE_SIZE t n = ALIGNB_size_t t n (MAX_DATATYPE_SIZE t))
    ∧ (k ≤ 30 → (n : Int) + 2 ^ k - 1 < 2147483648 → ALIGNB (n : Int) (2 ^ k) = (r : Int)) := by
  obtain ⟨hb, ha, hn⟩ := round_up_body t k n r hW hk hr hfit
  refine ⟨?_, ?_, ?_⟩
  · intro hU
    have e : ROUND_UP_NATIVE_ALIGNMENT t n = r := by
      unfold ROUND_UP_NATIVE_ALIGNMENT NATIVE_ALIGNMENT_MASK NATIVE_ALIGNMENT
      rw [hU]
      exact hb
    refine ⟨e, fun hd => by rw [e, hn hd], ?_⟩
    unfold NATIVE_ALIGNMENT
    rw [e, hU, ha]
  · intro hU
    have e : ROUND_UP_DATATYPE_SIZE t n = r := by
      unfold ROUND_UP_DATATYPE_SIZE MAX_DATATYPE_SIZE_MASK MAX_DATATYPE_SIZE
      rw [hU]
      exact hb
    refine ⟨e, fun hd => by rw [e, hn hd], ?_⟩
    unfold MAX_DATATYPE_SIZE
    rw [e, hU, ha]
  · intro hk30 hno
    have hpos : (0 : Int) < 2 ^ k := by positivity
    have hle : (2 : Int) ^ k ≤ 1073741824 := by
      rw [two_pow_cast]
      exact_mod_cast two_pow_le k hk30
    have hn0 : (0 : Int) ≤ (n : Int) := Int.ofNat_nonneg n
    have hs : isInt32 ((n : Int) + (2 ^ k - 1)) := ⟨by omega, by omega⟩
    rw [ALIGNB_eq_FLOORB _ _ hpos (by omega) hs, FLOORB_pow2 _ k hk30 hs]
    have hc := ceil_isLeast (n : Int) (2 ^ k) hpos
    have hr2 : IsLeastMultipleGE (r : Int) (n : Int) (2 ^ k) := by
      rw [two_pow_cast]
      exact hr
    exact le_antisymm (hc.2.2 _ hr2.1 hr2.2.1) (hr2.2.2 _ hc.1 hc.2.1)


theorem least_multiple_sample :
    IsLeastMultipleGE ((16 : Nat) : Int) ((13 : Nat) : Int) ((2 ^ 2 : Nat) : Int) := by
  refine ⟨⟨4, by norm_num⟩, by norm_num, ?_⟩
  rintro m ⟨c, rfl⟩ h
  push_cast at h ⊢
  omega

/-- C13 at a sample input: 13 bytes on the 32-bit target round up to 16 for the 4-byte
native unit. -/
theorem round_up_least_multiple_witness :
    32 ≤ target32.size_t_bits ∧ 2 < target32.size_t_bits
    ∧ IsLeastMultipleGE ((16 : Nat) : Int) ((13 : Nat) : Int) ((2 ^ 2 : Nat) : Int)
    ∧ target32.sizeof_void_ptr = 2 ^ 2
    ∧ ROUND_UP_NATIVE_ALIGNMENT target32 13 = 16
    ∧ ROUND_UP_NATIVE_ALIGNMENT target32 13 = ALIGNB_size_t target32 13 (NATIVE_ALIGNMENT target32) :=
  have h := (round_up_least_multiple target32 2 13 16 (by decide) (by decide)
    least_multiple_sample (by decide)).1 (by decide)
  ⟨by decide, by decide, least_multiple_sample, by decide, h.1, h.2.2⟩


/-! ## debug.h: monotonicity and nesting -/

theorem static_unscoped_gate {σ : Type} (b : Build) (hd : b.DEBUG_PRINT = true)
    (hr : b.RUNTIME_PRINT_LEVEL = false) (fmt : String) (args : List (Arg σ)) (w : World σ) :
    emits w (PRINT b fmt args w)
    ∧ (emits w (PRINTW b fmt args w) ↔ b.CURRENT_PRINT_LEVEL ≤ PRINT_LEVEL_WARN)
    ∧ (emits w (PRINTI b fmt args w) ↔ b.CURRENT_PRINT_LEVEL ≤ PRINT_LEVEL_INFO)
    ∧ (emits w (PRINTD b fmt args w) ↔ b.CURRENT_PRINT_LEVEL ≤ PRINT_LEVEL_DEBUG)
    ∧ (emits w (PRINTV b fmt args w) ↔ b.CURRENT_PRINT_LEVEL = PRINT_LEVEL_ALL) := by
  unfold PRINT PRINTW PRINTI PRINTD PRINTV
  simp only [hd, hr, if_true, Bool.not_false]
  exact ⟨ucprintf_emits fmt args w, emits_gate _ fmt args w, emits_gate _ fmt args w,
    emits_gate _ fmt args w, emits_gate _ fmt args w⟩


theorem level_all_le_debug : PRINT_LEVEL_ALL ≤ PRINT_LEVEL_DEBUG := by decide

theorem level_debug_le_info : PRINT_LEVEL_DEBUG ≤ PRINT_LEVEL_INFO := by decide

theorem level_info_le_warn : PRINT_LEVEL_INFO ≤ PRINT_LEVEL_WARN := by decide

/-- C21, as stated, fails for a compile-time level below zero: `-1 <= 0`, `PRINTV` emits
with `CURRENT_PRINT_LEVEL` defined as `0`, and it does not emit with it defined as `-1`,
because it tests equality with `PRINT_LEVEL_ALL`. -/
theorem printv_not_monotone_below_zero :
    (-1 : Int) ≤ 0
    ∧ emits sampleWorld (PRINTV (withLevel staticBuild 0) "v" [] sampleWorld)
    ∧ ¬ emits sampleWorld (PRINTV (withLevel staticBuild (-1)) "v" [] sampleWorld) := by
  have u0 := (static_unscoped_gate (withLevel staticBuild 0) rfl rfl "v"
    ([] : List (Arg Nat)) sampleWorld).2.2.2.2
  have u1 := (static_unscoped_gate (withLevel staticBuild (-1)) rfl rfl "v"
    ([] : List (Arg Nat)) sampleWorld).2.2.2.2
  exact ⟨by decide, u0.mpr (by decide), fun h => absurd (u1.mp h) (by decide)⟩

/-- The two pasted scope tests disagree on a compound argument: with mask
`PRINT_SCOPE_AREA01` and scope argument `PRINT_SCOPE_AREA00 | PRINT_SCOPE_NONE`, `SPRINTW`
tests `1 | (0 & 2)` and emits while `SPRINT` tests `(2 & 1) | 0` and does not. -/
theorem sprintw_emits_sprint_silent :
    sprintLevelTest scopeArea00orNone (worldAt 2 2) = 1
    ∧ sprintTest scopeArea00orNone (worldAt 2 2) = 0
    ∧ semits (worldAt 2 2) (SPRINTW runtimeBuild scopeArea00orNone "w" [] (worldAt 2 2))
    ∧ ¬ semits (worldAt 2 2) (SPRINT runtimeBuild scopeArea00orNone "w" [] (worldAt 2 2)) := by
  obtain ⟨s0, sW, _, _, _⟩ :=
    runtime_scoped_gate runtimeBuild rfl rfl scopeArea00orNone "w" [] (worldAt 2 2)
  exact ⟨by decide, by decide, sW.mpr (by decide), fun h => absurd (s0.mp h) (by decide)⟩

/-- C21, amended. With `DEBUG_PRINT`, if a gate macro, scoped or not, emits at level `T`, it
emits at every level `T' <= T` under the same scope mask and scope argument: for every pair
of 16-bit run-time levels, and, for a compile-time level, for every integer pair for `PRINT`,
`PRINTW`, `PRINTI`, `PRINTD` and for every `0 <= T' <= T` for `PRINTV`.  At any fixed
threshold `PRINTV` emitting implies `PRINTD`, then `PRINTI`, then `PRINTW`, then `PRINT`;
`SPRINTV` emitting implies `SPRINTD`, then `SPRINTI`, then `SPRINTW` for every scope
argument, and `SPRINTW` emitting implies `SPRINT` for a scope argument that is a single
operand. -/
theorem verbosity_monotone_nested {σ : Type} (b : Build) (hd : b.DEBUG_PRINT = true)
    (scope : ScopeArg σ) (e : Arg σ) (fmt : String) (args : List (Arg σ)) (w : World σ) :
    (b.RUNTIME_PRINT_LEVEL = true → ∀ T T' : Fin 65536, T' ≤ T →
      (emits (atLevel w T) (PRINT b fmt args (atLevel w T)) →
        emits (atLevel w T') (PRINT b fmt args (atLevel w T')))
      ∧ (emits (atLevel w T) (PRINTW b fmt args (atLevel w T)) →
        emits (atLevel w T') (PRINTW b fmt args (atLevel w T')))
      ∧ (emits (atLevel w T) (PRINTI b fmt args (atLevel w T)) →
        emits (atLevel w T') (PRINTI b fmt args (atLevel w T')))
      ∧ (emits (atLevel w T) (PRINTD b fmt args (atLevel w T)) →
        emits (atLevel w T') (PRINTD b fmt args (atLevel w T')))
      ∧ (emits (atLevel w T) (PRINTV b fmt args (atLevel w T)) →
        emits (atLevel w T') (PRINTV b fmt args (atLevel w T')))
      ∧ (semits (atLevel w T) (SPRINT b scope fmt args (atLevel w T)) →
        semits (atLevel w T') (SPRINT b scope fmt args (atLevel w T')))
      ∧ (semits (atLevel w T) (SPRINTW b scope fmt args (atLevel w T)) →
        semits (atLevel w T') (SPRINTW b scope fmt args (atLevel w T')))
      ∧ (semits (atLevel w T) (SPRINTI b scope fmt args (atLevel w T)) →
        semits (atLevel w T') (SPRINTI b scope fmt args (atLevel w T')))
      ∧ (semits (atLevel w T) (SPRINTD b scope fmt args (atLevel w T)) →
        semits (atLevel w T') (SPRINTD b scope fmt args (atLevel w T')))
      ∧ (semits (atLevel w T) (SPRINTV b scope fmt args (atLevel w T)) →
        semits (atLevel w T') (SPRINTV b scope fmt args (atLevel w T'))))
    ∧ (b.RUNTIME_PRINT_LEVEL = false → ∀ T T' : Int, T' ≤ T →
      (emits w (PRINT (withLevel b T) fmt args w) →
        emits w (PRINT (withLevel b T') fmt args w))
      ∧ (emits w (PRINTW (withLevel b T) fmt args w) →
        emits w (PRINTW (withLevel b T') fmt args w))
      ∧ (emits w (PRINTI (withLevel b T) fmt args w) →
        emits w (PRINTI (withLevel b T') fmt args w))
      ∧ (emits w (PRINTD (withLevel b T) fmt args w) →
        emits w (PRINTD (withLevel b T') fmt args w))
      ∧ (0 ≤ T' → emits w (PRINTV (withLevel b T) fmt args w) →
        emits w (PRINTV (withLevel b T') fmt args w)))
    ∧ ((emits w (PRINTV b fmt args w) → emits w (PRINTD b fmt args w))
      ∧ (emits w (PRINTD b fmt args w) → emits w (PRINTI b fmt args w))
      ∧ (emits w (PRINTI b fmt args w) → emits w (PRINTW b fmt args w))
      ∧ (emits w (PRINTW b fmt args w) → emits w (PRINT b fmt args w)))
    ∧ (b.RUNTIME_PRINT_LEVEL = true →
      (semits w (SPRINTV b scope fmt args w) → semits w (SPRINTD b scope fmt args w))
      ∧ (semits w (SPRINTD b scope fmt args w) → semits w (SPRINTI b scope fmt args w))
      ∧ (semits w (SPRINTI b scope fmt args w) → semits w (SPRINTW b scope fmt args w))
      ∧ (semits w (SPRINTW b (singleScope e) fmt args w) →
        semits w (SPRINT b (singleScope e) fmt args w))) := by
  refine ⟨?_, ?_, ?_, ?_⟩
  · intro hr T T' hTT
    have hle : ((T'.val : Nat) : Int) ≤ ((T.val : Nat) : Int) := by
      have h' : T'.val ≤ T.val := hTT
      exact_mod_cast h'
    have h0 : (0 : Int) ≤ ((T'.val : Nat) : Int) := Int.ofNat_nonneg _
    obtain ⟨_, uW, uI, uD, uV⟩ := runtime_unscoped_gate b hd hr fmt args (atLevel w T)
    obtain ⟨v0, vW, vI, vD, vV⟩ := runtime_unscoped_gate b hd hr fmt args (atLevel w T')
    obtain ⟨s0, sW, sI, sD, sV⟩ := runtime_scoped_gate b hd hr scope fmt args (atLevel w T)
    obtain ⟨t0, tW, tI, tD, tV⟩ := runtime_scoped_gate b hd hr scope fmt args (atLevel w T')
    refine ⟨fun _ => v0, fun h => vW.mpr (le_trans hle (uW.mp h)),
      fun h => vI.mpr (le_trans hle (uI.mp h)), fun h => vD.mpr (le_trans hle (uD.mp h)),
      ?_, fun h => t0.mpr (s0.mp h), fun h => tW.mpr ⟨(sW.mp h).1, le_trans hle (sW.mp h).2⟩,
      fun h => tI.mpr ⟨(sI.mp h).1, le_trans hle (sI.mp h).2⟩,
      fun h => tD.mpr ⟨(sD.mp h).1, le_trans hle (sD.mp h).2⟩,
      fun h => tV.mpr ⟨(sV.mp h).1, le_trans hle (sV.mp h).2⟩⟩
    intro h
    have hT : ((T.val : Nat) : Int) = 0 := uV.mp h
    apply vV.mpr
    show ((T'.val : Nat) : Int) = 0
    omega
  · intro hr T T' hTT
    obtain ⟨_, uW, uI, uD, uV⟩ := static_unscoped_gate (withLevel b T) hd hr fmt args w
    obtain ⟨v0, vW, vI, vD, vV⟩ := static_unscoped_gate (withLevel b T') hd hr fmt args w
    refine ⟨fun _ => v0, fun h => vW.mpr (le_trans hTT (uW.mp h)),
      fun h => vI.mpr (le_trans hTT (uI.mp h)), fun h => vD.mpr (le_trans hTT (uD.mp h)), ?_⟩
    intro h0 h
    have hT : T = 0 := uV.mp h
    apply vV.mpr
    show T' = 0
    omega
  · cases hr : b.RUNTIME_PRINT_LEVEL
    · obtain ⟨u0, uW, uI, uD, uV⟩ := static_unscoped_gate b hd hr fmt args w
      exact ⟨fun h => uD.mpr (by rw [uV.mp h]; exact level_all_le_debug),
        fun h => uI.mpr (le_trans (uD.mp h) level_debug_le_info),
        fun h => uW.mpr (le_trans (uI.mp h) level_info_le_warn), fun _ => u0⟩
    · obtain ⟨u0, uW, uI, uD, uV⟩ := runtime_unscoped_gate b hd hr fmt args w
      exact ⟨fun h => uD.mpr (by rw [uV.mp h]; exact level_all_le_debug),
        fun h => uI.mpr (le_trans (uD.mp h) level_debug_le_info),
        fun h => uW.mpr (le_trans (uI.mp h) level_info_le_warn), fun _ => u0⟩
  · intro hr
    obtain ⟨_, sW, sI, sD, sV⟩ := runtime_scoped_gate b hd hr scope fmt args w
    obtain ⟨e0, eW, _, _, _⟩ := scoped_gate_single_operand b hd hr e fmt args w
    exact ⟨fun h => sD.mpr ⟨(sV.mp h).1, le_trans (sV.mp h).2 level_all_le_debug⟩,
      fun h => sI.mpr ⟨(sD.mp h).1, le_trans (sD.mp h).2 level_debug_le_info⟩,
      fun h => sW.mpr ⟨(sI.mp h).1, le_trans (sI.mp h).2 level_info_le_warn⟩,
      fun h => e0.mpr (eW.mp h).1⟩

/-- C21 amended, at sample inputs: `SPRINTI` with the compound scope argument emits at level
`INFO`, hence at level `DEBUG`; and `PRINTI` emitting implies `PRINTW` emits. -/
theorem verbosity_monotone_nested_witness :
    runtimeBuild.DEBUG_PRINT = true ∧ runtimeBuild.RUNTIME_PRINT_LEVEL = true
    ∧ (1 : Fin 65536) ≤ 2
    ∧ (semits (atLevel sampleWorld 2)
        (SPRINTI runtimeBuild scopeArea00or02 "i" [] (atLevel sampleWorld 2)) →
      semits (atLevel sampleWorld 1)
        (SPRINTI runtimeBuild scopeArea00or02 "i" [] (atLevel sampleWorld 1)))
    ∧ (emits sampleWorld (PRINTI runtimeBuild "i" [postIncr] sampleWorld) →
      emits sampleWorld (PRINTW runtimeBuild "i" [postIncr] sampleWorld)) :=
  have h := verbosity_monotone_nested runtimeBuild rfl scopeArea00or02 scopeIncr "i" []
    sampleWorld
  have g := verbosity_monotone_nested runtimeBuild rfl scopeArea00or02 scopeIncr "i"
    [postIncr] sampleWorld
  ⟨rfl, rfl, by decide, (h.1 rfl 2 1 (by decide)).2.2.2.2.2.2.2.1, g.2.2.1.2.2.1⟩

/-! ## macros.h: single bits, frame and idempotence -/

theorem eq_of_testBit_toBits (u v : Int) (hu : isInt32 u) (hv : isInt32 v)
    (h : ∀ i : Nat, (toBits u).testBit i = (toBits v).testBit i) : u = v := by
  have hb : toBits u = toBits v := Nat.eq_of_testBit_eq h
  have h1 : wrap u = wrap v := by
    unfold wrap
    rw [hb]
  rw [wrap_of_isInt32 u hu, wrap_of_isInt32 v hv] at h1
  exact h1

theorem testBit_BITSET (x : Int) (n i : Nat) :
    (toBits (BITSET x n)).testBit i
      = ((toBits x).testBit i || (decide (i < 32) && decide (n = i))) := by
  unfold BITSET
  rw [testBit_bor, testBit_shl_one]

theorem testBit_BITCLR (x : Int) (n i : Nat) :
    (toBits (BITCLR x n)).testBit i
      = ((toBits x).testBit i && (decide (i < 32) && !(decide (i < 32) && decide (n = i)))) := by
  unfold BITCLR
  rw [testBit_band, testBit_bnot, testBit_shl_one]

theorem BITSET_isInt32 (x : Int) (n : Nat) : isInt32 (BITSET x n) := by
  unfold BITSET bor
  exact ofBits_isInt32 _

theorem BITCLR_isInt32 (x : Int) (n : Nat) : isInt32 (BITCLR x n) := by
  unfold BITCLR band
  exact ofBits_isInt32 _

theorem BITGET_eq_one_iff (x : Int) (n : Nat) (hn : n < 32) :
    BITGET x n = 1 ↔ (toBits x).testBit n = true := by
  rw [BITGET_eq x n hn]
  cases (toBits x).testBit n <;> simp

theorem BITGET_eq_zero_iff (x : Int) (n : Nat) (hn : n < 32) :
    BITGET x n = 0 ↔ (toBits x).testBit n = false := by
  rw [BITGET_eq x n hn]
  cases (toBits x).testBit n <;> simp

/-- C22. On 32-bit `int` operands with indices `n`, `m` below 32: for `n != m`,
`BITGET(BITSET(x, n), m) == BITGET(x, m)` and `BITGET(BITCLR(x, n), m) == BITGET(x, m)`;
`BITGET(x, n)` is `0` or `1`, also for negative `x`; `BITSET` and `BITCLR` are idempotent;
`BITSET(x, n) == x` iff `BITGET(x, n) == 1`, and `BITCLR(x, n) == x` iff
`BITGET(x, n) == 0`. -/
theorem bit_ops_frame (x : Int) (n m : Nat) (hx : isInt32 x) (hn : n < 32) (hm : m < 32) :
    (n ≠ m → BITGET (BITSET x n) m = BITGET x m ∧ BITGET (BITCLR x n) m = BITGET x m)
    ∧ (BITGET x n = 0 ∨ BITGET x n = 1)
    ∧ BITSET (BITSET x n) n = BITSET x n
    ∧ BITCLR (BITCLR x n) n = BITCLR x n
    ∧ (BITSET x n = x ↔ BITGET x n = 1)
    ∧ (BITCLR x n = x ↔ BITGET x n = 0) := by
  refine ⟨?_, ?_, ?_, ?_, ?_, ?_⟩
  · intro hne
    rw [BITGET_eq (BITSET x n) m hm, BITGET_eq (BITCLR x n) m hm, BITGET_eq x m hm,
      testBit_BITSET, testBit_BITCLR]
    simp [hne, hm]
  · rw [BITGET_eq x n hn]
    cases (toBits x).testBit n <;> simp
  · apply eq_of_testBit_toBits _ _ (BITSET_isInt32 _ n) (BITSET_isInt32 x n)
    intro i
    rw [testBit_BITSET, testBit_BITSET]
    cases (toBits x).testBit i <;> simp
  · apply eq_of_testBit_toBits _ _ (BITCLR_isInt32 _ n) (BITCLR_isInt32 x n)
    intro i
    rw [testBit_BITCLR, testBit_BITCLR]
    cases (toBits x).testBit i <;> simp
  · rw [BITGET_eq_one_iff x n hn]
    constructor
    · intro h
      have h1 := testBit_BITSET x n n
      rw [h] at h1
      simpa [hn] using h1
    · intro hbit
      apply eq_of_testBit_toBits _ _ (BITSET_isInt32 x n) hx
      intro i
      rw [testBit_BITSET]
      by_cases hi : n = i
      · subst hi
        simp [hbit]
      · simp [hi]
  · rw [BITGET_eq_zero_iff x n hn]
    constructor
    · intro h
      have h1 := testBit_BITCLR x n n
      rw [h] at h1
      simpa [hn] using h1
    · intro hbit
      apply eq_of_testBit_toBits _ _ (BITCLR_isInt32 x n) hx
      intro i
      rw [testBit_BITCLR]
      by_cases hi : n = i
      · subst hi
        simp [hbit]
      · by_cases h32 : i < 32
        · simp [hi, h32]
        · simp [testBit_toBits_ge x i (by omega)]

/-- C22 at sample inputs: setting the sign bit of `-6` leaves it unchanged and leaves bit 0
as it was; clearing bit 1 of `5` leaves it unchanged. -/
theorem bit_ops_frame_witness :
    isInt32 (-6) ∧ 31 < 32 ∧ 0 < 32 ∧ BITGET (BITSET (-6) 31) 0 = BITGET (-6) 0
    ∧ (BITSET (-6) 31 = -6 ↔ BITGET (-6) 31 = 1)
    ∧ (BITGET (-6) 31 = 0 ∨ BITGET (-6) 31 = 1) :=
  have h := bit_ops_frame (-6) 31 0 (by decide) (by decide) (by decide)
  ⟨by decide, by decide, by decide, (h.1 (by decide)).1, h.2.2.2.2.1, h.2.1⟩


end CHeaders
